import Mathlib

/-!
Shallow embedding of the booking core of the flight_db_proj repository
(src/backend/booking_service.py together with src/database/models.py and
src/database/database.py).

Modelling conventions:
* SQL rows become Lean structures; the relevant tables become lists inside a
  `DB` record.  Columns that no claim touches (timestamps, names, aircraft
  data, window/aisle flags, ...) are omitted.
* Python floats (prices, multipliers) are embedded as rationals; Python's
  `int(x)` truncation toward zero is `truncToInt`.
* Each service operation is a state transformer `DB → ... → result × DB`.
  `DatabaseManager.serializable_transaction` commits on success and rolls
  back on exception (database.py lines 210-215), so the public operations
  return the original `DB` whenever the transaction body raises.
* Concurrency appears in two places, mirroring the code's two defence
  mechanisms: `_reserve_seat`'s conditional-update loop takes an oracle
  `env : Nat → Bool` saying whether the current candidate seat is grabbed by
  a rival transaction between the SELECT and the UPDATE, and the retry
  coordinator in `create_booking` / `change_seat` is modelled over an oracle
  giving each attempt's outcome (`TxOutcome`).
-/

deriving instance DecidableEq for Except

namespace FlightDB

/-- Seat classes, from `SeatClass` in models.py. -/
inductive SeatClass where
  | economy
  | business
  | first
  deriving DecidableEq, Fintype

/-- Booking statuses, from `BookingStatus` in models.py. -/
inductive BookingStatus where
  | pending
  | confirmed
  | cancelled
  | completed
  deriving DecidableEq, Fintype

/-- Loyalty tiers, from `LoyaltyTier` in models.py. -/
inductive LoyaltyTier where
  | bronze
  | silver
  | gold
  | platinum
  deriving DecidableEq, Fintype

/-- A row of the `seats` table (models.py lines 180-199); window/aisle flags
are omitted as no claim reads them. -/
structure Seat where
  id : Nat
  flight_id : Nat
  seat_number : String
  seat_class : SeatClass
  is_available : Bool
  deriving DecidableEq

/-- A row of the `flights` table (models.py lines 126-174), restricted to the
columns the booking core reads. -/
structure Flight where
  id : Nat
  base_price_economy : ℚ
  base_price_business : ℚ
  base_price_first : ℚ
  available_economy : ℤ
  available_business : ℤ
  available_first : ℤ
  status : String
  deriving DecidableEq

/-- A row of the `bookings` table (models.py lines 205-231). -/
structure Booking where
  id : Nat
  booking_reference : String
  passenger_id : Nat
  flight_id : Nat
  seat_id : Option Nat
  seat_class : SeatClass
  price : ℚ
  status : BookingStatus
  deriving DecidableEq

/-- A row of the `frequent_flyers` table (models.py lines 261-282). -/
structure FrequentFlyer where
  id : Nat
  passenger_id : Nat
  points : ℤ
  tier : LoyaltyTier
  deriving DecidableEq

/-- The database state.  Passenger rows carry many columns the core never
reads; only the primary key matters to the booking logic, so the
`passengers` table is the list of passenger ids. -/
structure DB where
  flights : List Flight
  seats : List Seat
  bookings : List Booking
  passengers : List Nat
  flyers : List FrequentFlyer
  deriving DecidableEq

/-- Error kinds raised by the service (each is a `ValueError` in the source;
`counterConflict` is the message at booking_service.py line 342,
`concurrencyConflict` the retry-exhaustion message at line 258). -/
inductive BookingError where
  | passengerNotFound
  | flightNotFound
  | flightNotSchedulable
  | noAvailability
  | seatUnavailable
  | validationError
  | counterConflict
  | bookingNotFound
  | notPending
  | alreadyCancelled
  | cannotCancelCompleted
  | invalidStatusForSeatChange
  | concurrencyConflict
  deriving DecidableEq

/-- Python `int(x)`: truncation toward zero. -/
def truncToInt (q : ℚ) : ℤ :=
  if 0 ≤ q then ⌊q⌋ else ⌈q⌉

/-- The per-class availability column of a flight row
(`column_map` at booking_service.py lines 194-198). -/
def availOf (fl : Flight) : SeatClass → ℤ
  | .economy => fl.available_economy
  | .business => fl.available_business
  | .first => fl.available_first

/-- Write the per-class availability column of a flight row. -/
def setAvail (fl : Flight) (c : SeatClass) (v : ℤ) : Flight :=
  match c with
  | .economy => { fl with available_economy := v }
  | .business => { fl with available_business := v }
  | .first => { fl with available_first := v }

/-- The per-class base price of a flight row
(booking_service.py lines 314-319). -/
def basePriceOf (fl : Flight) : SeatClass → ℚ
  | .economy => fl.base_price_economy
  | .business => fl.base_price_business
  | .first => fl.base_price_first

/-- Tier multipliers (`tier_multipliers` at booking_service.py
lines 755-760 and 83-88). -/
def tierMultiplier : LoyaltyTier → ℚ
  | .bronze => 1
  | .silver => 5 / 4
  | .gold => 3 / 2
  | .platinum => 2

/-- BookingService._calculate_points (booking_service.py lines 113-135):
truncate the price, apply the class multiplier and truncate, apply the tier
multiplier and truncate. -/
def calculate_points (price : ℚ) (seat_class : SeatClass) (tier_multiplier : ℚ) : ℤ :=
  let base_points := truncToInt price
  let base_points : ℤ :=
    match seat_class with
    | .first => truncToInt ((base_points : ℚ) * 3)
    | .business => truncToInt ((base_points : ℚ) * 2)
    | .economy => base_points
  truncToInt ((base_points : ℚ) * tier_multiplier)

/-- The spec's class point multiplier (economy 1, business 2, first 3),
used to compare `calculate_points` with the spec formula. -/
def classPointMultiplier : SeatClass → ℤ
  | .economy => 1
  | .business => 2
  | .first => 3

/-- FrequentFlyer.calculate_tier (models.py lines 284-293). -/
def calculate_tier (points : ℤ) : LoyaltyTier :=
  if points ≥ 100000 then .platinum
  else if points ≥ 50000 then .gold
  else if points ≥ 25000 then .silver
  else .bronze

/-- The loyalty reversal inside BookingService._apply_cancellation_effects
(booking_service.py lines 92-96): clamp the deduction at zero, then
recompute the tier. -/
def loyaltyReverse (loyalty : FrequentFlyer) (points : ℤ) : FrequentFlyer :=
  let new_points := max 0 (loyalty.points - points)
  { loyalty with points := new_points, tier := calculate_tier new_points }

/-- Whether a booking is active (status PENDING or CONFIRMED). -/
def isActive (b : Booking) : Bool :=
  b.status == .pending || b.status == .confirmed

/-- SELECT a flight row by primary key. -/
def findFlight (db : DB) (flight_id : Nat) : Option Flight :=
  db.flights.find? (fun f => f.id == flight_id)

/-- SELECT a booking row by primary key. -/
def findBooking (db : DB) (booking_id : Nat) : Option Booking :=
  db.bookings.find? (fun b => b.id == booking_id)

/-- SELECT a seat row by primary key. -/
def findSeat (db : DB) (seat_id : Nat) : Option Seat :=
  db.seats.find? (fun s => s.id == seat_id)

/-- SELECT the frequent-flyer row of a passenger
(booking_service.py lines 72-78 and 743-748). -/
def findFlyer (db : DB) (passenger_id : Nat) : Option FrequentFlyer :=
  db.flyers.find? (fun ff => ff.passenger_id == passenger_id)

/-- UPDATE seats SET is_available = v WHERE id = seat_id. -/
def setSeatAvailability (db : DB) (seat_id : Nat) (v : Bool) : DB :=
  { db with seats := db.seats.map (fun s =>
      if s.id == seat_id then { s with is_available := v } else s) }

/-- UPDATE bookings SET status = st WHERE id = booking_id. -/
def setBookingStatus (db : DB) (booking_id : Nat) (st : BookingStatus) : DB :=
  { db with bookings := db.bookings.map (fun b =>
      if b.id == booking_id then { b with status := st } else b) }

/-- UPDATE bookings SET seat_id = sid WHERE id = booking_id. -/
def setBookingSeat (db : DB) (booking_id : Nat) (sid : Nat) : DB :=
  { db with bookings := db.bookings.map (fun b =>
      if b.id == booking_id then { b with seat_id := some sid } else b) }

/-- UPDATE frequent_flyers SET points, tier WHERE id = flyer_id. -/
def setFlyer (db : DB) (flyer_id : Nat) (pts : ℤ) (t : LoyaltyTier) : DB :=
  { db with flyers := db.flyers.map (fun ff =>
      if ff.id == flyer_id then { ff with points := pts, tier := t } else ff) }

/-- The WHERE clause of _adjust_availability's UPDATE: the row of the given
flight, additionally requiring `column >= abs(delta)` when delta is
negative (booking_service.py lines 202-216). -/
def adjustMatches (flight_id : Nat) (c : SeatClass) (delta : ℤ) (f : Flight) : Bool :=
  f.id == flight_id && (if delta < 0 then decide (|delta| ≤ availOf f c) else true)

/-- BookingService._adjust_availability (booking_service.py lines 191-219):
a single conditional UPDATE.  For a negative delta the WHERE clause also
requires `column >= abs(delta)`; the returned Bool is whether any row was
affected (RETURNING id). -/
def adjust_availability (db : DB) (flight_id : Nat) (c : SeatClass) (delta : ℤ) :
    Bool × DB :=
  (db.flights.any (adjustMatches flight_id c delta),
   { db with flights := db.flights.map (fun f =>
       if adjustMatches flight_id c delta f then setAvail f c (availOf f c + delta) else f) })

/-- Whether a seat row satisfies the WHERE clause of the reservation SELECTs
(flight, class, is_available = TRUE; booking_service.py lines 144-164). -/
def seatMatches (flight_id : Nat) (c : SeatClass) (s : Seat) : Bool :=
  s.flight_id == flight_id && s.seat_class == c && s.is_available

/-- ORDER BY seat_number ASC LIMIT 1: the row whose seat_number is least in
the lexicographic string order (the order on the underlying character
lists, which is how `<` on `String` is defined), leftmost on ties. -/
def minBySeatNumber : List Seat → Option Seat
  | [] => none
  | s :: rest =>
    match minBySeatNumber rest with
    | none => some s
    | some t => some (if t.seat_number.data < s.seat_number.data then t else s)

/-- The candidate SELECT of _reserve_seat: with a seat number, the unique
available row with that number; without, the available row with the least
seat_number. -/
def findCandidate (db : DB) (flight_id : Nat) (c : SeatClass) :
    Option String → Option Seat
  | some sn => db.seats.find? (fun s => seatMatches flight_id c s && s.seat_number == sn)
  | none => minBySeatNumber (db.seats.filter (seatMatches flight_id c))

/-- Number of available seats of the given flight and class; strictly
decreases at every lost race, bounding _reserve_seat's loop. -/
def availSeatCount (db : DB) (flight_id : Nat) (c : SeatClass) : Nat :=
  db.seats.countP (seatMatches flight_id c)

/-- One iteration of BookingService._reserve_seat's `while True` loop
(booking_service.py lines 166-189), as a case analysis on (whether the
conditional UPDATE loses a race to a rival transaction, the requested seat
number, the candidate SELECT's result): no candidate returns null; a won
race flips the candidate and returns it; a lost race on a specific seat
returns null with no fallback; a lost race during auto-assignment continues
with the loop `cont` on the state where the rival's flip is visible.
Besides the seat and the final state, the trace of candidates tried is
threaded through. -/
def reserveStep (cont : DB → Option Seat × DB × List Seat) (db : DB) :
    Bool → Option String → Option Seat → Option Seat × DB × List Seat
  | _, _, none => (none, db, [])
  | false, _, some cand =>
    (some { cand with is_available := false }, setSeatAvailability db cand.id false, [cand])
  | true, some _, some cand => (none, setSeatAvailability db cand.id false, [cand])
  | true, none, some cand =>
    let r := cont (setSeatAvailability db cand.id false)
    (r.1, r.2.1, cand :: r.2.2)

/-- BookingService._reserve_seat's `while True` loop (booking_service.py
lines 137-189), fuelled.  `env 0 = true` means a rival transaction flips the
current candidate to unavailable between the SELECT and the conditional
UPDATE (the lost race); the oracle is shifted on each retry.  The fuel-0
branch is unreachable whenever the fuel exceeds `availSeatCount`, which the
wrapper guarantees. -/
def reserveGo (flight_id : Nat) (c : SeatClass) (seat_number : Option String) :
    Nat → (Nat → Bool) → DB → Option Seat × DB × List Seat
  | 0, _, db => (none, db, [])
  | fuel + 1, env, db =>
    reserveStep (reserveGo flight_id c seat_number fuel (fun n => env (n + 1))) db
      (env 0) seat_number (findCandidate db flight_id c seat_number)

/-- BookingService._reserve_seat (booking_service.py lines 137-189). -/
def reserve_seat (env : Nat → Bool) (db : DB) (flight_id : Nat) (c : SeatClass)
    (seat_number : Option String) : Option Seat × DB × List Seat :=
  reserveGo flight_id c seat_number (db.seats.length + 1) env db

/-- The interference-free oracle: inside a SERIALIZABLE transaction of the
sequential semantics no conditional update is lost. -/
def noSteal : Nat → Bool := fun _ => false

/-- Lines 334-342 of booking_service.py: decrement the availability counter;
if no row was affected, flip the just-reserved seat back to available
(the compensating release) and report failure. -/
def decrementOrRelease (db : DB) (flight_id : Nat) (c : SeatClass) (seat : Seat) :
    Bool × DB :=
  let r := adjust_availability db flight_id c (-1)
  if r.1 then (true, r.2) else (false, setSeatAvailability r.2 seat.id true)

/-- BookingService._create_booking_transaction (booking_service.py
lines 263-460).  The booking reference is passed in as the result of the
draw-until-unique loop of lines 344-352, and `new_booking_id` as the id the
INSERT RETURNING id produces; neither value influences any other step.  The
returned `DB` is the state at the return or raise point, before the
surrounding transaction commits or rolls back. -/
def create_booking_txn (db₀ : DB) (passenger_id flight_id : Nat)
    (seat_class : SeatClass) (specific_seat : Option String) (auto_assign : Bool)
    (booking_reference : String) (new_booking_id : Nat) :
    Except BookingError Booking × DB :=
  if ¬ db₀.passengers.contains passenger_id then (.error .passengerNotFound, db₀)
  else
    match findFlight db₀ flight_id with
    | none => (.error .flightNotFound, db₀)
    | some flight =>
      if flight.status ≠ "scheduled" then (.error .flightNotSchedulable, db₀)
      else if availOf flight seat_class ≤ 0 then (.error .noAvailability, db₀)
      else
        let price := basePriceOf flight seat_class
        let finish : Seat → DB → Except BookingError Booking × DB := fun seat db₁ =>
          let r := decrementOrRelease db₁ flight.id seat_class seat
          if r.1 then
            let booking : Booking :=
              { id := new_booking_id, booking_reference := booking_reference,
                passenger_id := passenger_id, flight_id := flight_id,
                seat_id := some seat.id, seat_class := seat_class,
                price := price, status := .pending }
            (.ok booking, { r.2 with bookings := r.2.bookings ++ [booking] })
          else
            (.error .counterConflict, r.2)
        match specific_seat, auto_assign with
        | some sn, _ =>
          match reserve_seat noSteal db₀ flight_id seat_class (some sn) with
          | (none, db₁, _) => (.error .seatUnavailable, db₁)
          | (some seat, db₁, _) => finish seat db₁
        | none, true =>
          match reserve_seat noSteal db₀ flight_id seat_class none with
          | (none, db₁, _) => (.error .noAvailability, db₁)
          | (some seat, db₁, _) => finish seat db₁
        | none, false => (.error .validationError, db₀)

/-- BookingService.create_booking at the committed-state level: the body runs
inside `serializable_transaction`, which commits on success and rolls back
on exception, so on error the committed state is the original one.  In the
sequential semantics the transaction never raises a serialization failure,
so the retry loop of lines 246-261 reduces to the single attempt; the retry
coordinator itself is modelled by `withSerializationRetry` below. -/
def create_booking (db₀ : DB) (passenger_id flight_id : Nat)
    (seat_class : SeatClass) (specific_seat : Option String) (auto_assign : Bool)
    (booking_reference : String) (new_booking_id : Nat) :
    Except BookingError Booking × DB :=
  match create_booking_txn db₀ passenger_id flight_id seat_class specific_seat
      auto_assign booking_reference new_booking_id with
  | (.ok b, db') => (.ok b, db')
  | (.error e, _) => (.error e, db₀)

/-- BookingService.confirm_booking (booking_service.py lines 686-892).
On payment success the booking turns CONFIRMED and, when both the passenger
row and its frequent-flyer row exist, points accrue; on payment failure the
booking turns CANCELLED, the seat is released and availability restored. -/
def confirm_booking (db₀ : DB) (booking_id : Nat) (payment_successful : Bool) :
    Except BookingError Booking × DB :=
  match findBooking db₀ booking_id with
  | none => (.error .bookingNotFound, db₀)
  | some booking =>
    if booking.status ≠ .pending then (.error .notPending, db₀)
    else if payment_successful then
      let db₁ := setBookingStatus db₀ booking.id .confirmed
      let db₂ :=
        if db₁.passengers.contains booking.passenger_id then
          match findFlyer db₁ booking.passenger_id with
          | some loyalty =>
            let multiplier := tierMultiplier loyalty.tier
            let points := calculate_points booking.price booking.seat_class multiplier
            let new_points := loyalty.points + points
            setFlyer db₁ loyalty.id new_points (calculate_tier new_points)
          | none => db₁
        else db₁
      (.ok { booking with status := .confirmed }, db₂)
    else
      let db₁ := setBookingStatus db₀ booking.id .cancelled
      let db₂ :=
        match booking.seat_id with
        | some sid => setSeatAvailability db₁ sid true
        | none => db₁
      let db₃ := (adjust_availability db₂ booking.flight_id booking.seat_class 1).2
      (.ok { booking with status := .cancelled }, db₃)

/-- BookingService._apply_cancellation_effects (booking_service.py
lines 24-105): guard against already-cancelled rows, set the status, release
the seat, restore availability, and reverse loyalty points when the booking
was CONFIRMED.  The `passenger` argument of the source is the same row the
fallback SELECT of lines 58-68 produces, so the lookup is modelled
uniformly through the database. -/
def apply_cancellation_effects (db₀ : DB) (booking : Booking) : Bool × DB :=
  if booking.status = .cancelled then (false, db₀)
  else
    let old_status := booking.status
    let db₁ := setBookingStatus db₀ booking.id .cancelled
    let db₂ :=
      match booking.seat_id with
      | some sid => setSeatAvailability db₁ sid true
      | none => db₁
    let db₃ := (adjust_availability db₂ booking.flight_id booking.seat_class 1).2
    let db₄ :=
      if old_status = .confirmed then
        if db₃.passengers.contains booking.passenger_id then
          match findFlyer db₃ booking.passenger_id with
          | some loyalty =>
            let multiplier := tierMultiplier loyalty.tier
            let points := calculate_points booking.price booking.seat_class multiplier
            let loyalty' := loyaltyReverse loyalty points
            setFlyer db₃ loyalty.id loyalty'.points loyalty'.tier
          | none => db₃
        else db₃
      else db₃
    (true, db₄)

/-- BookingService.cancel_booking (booking_service.py lines 894-1025):
distinct failures for already-cancelled and completed bookings, then the
shared cancellation effects. -/
def cancel_booking (db₀ : DB) (booking_id : Nat) :
    Except BookingError Booking × DB :=
  match findBooking db₀ booking_id with
  | none => (.error .bookingNotFound, db₀)
  | some booking =>
    if booking.status = .cancelled then (.error .alreadyCancelled, db₀)
    else if booking.status = .completed then (.error .cannotCancelCompleted, db₀)
    else
      (.ok { booking with status := .cancelled },
       (apply_cancellation_effects db₀ booking).2)

/-- BookingService.cancel_bookings_for_flight (booking_service.py
lines 1027-1090): fetch the PENDING/CONFIRMED bookings of the flight once,
then apply the cancellation effects to each, counting successes. -/
def cancel_bookings_for_flight (db₀ : DB) (flight_id : Nat) : Nat × DB :=
  let rows := db₀.bookings.filter (fun b => b.flight_id == flight_id && isActive b)
  rows.foldl
    (fun acc b =>
      let r := apply_cancellation_effects acc.2 b
      (if r.1 then acc.1 + 1 else acc.1, r.2))
    (0, db₀)

/-- BookingService._change_seat_transaction (booking_service.py
lines 1389-1553): same-seat requests short-circuit; otherwise the new seat
is reserved first and only then is the old seat released and the booking
row updated. -/
def change_seat_txn (db₀ : DB) (booking_id : Nat) (new_seat_number : String) :
    Except BookingError Booking × DB :=
  match findBooking db₀ booking_id with
  | none => (.error .bookingNotFound, db₀)
  | some booking =>
    let currentSeat : Option Seat := booking.seat_id.bind (findSeat db₀)
    if ¬ (isActive booking) then (.error .invalidStatusForSeatChange, db₀)
    else if (match currentSeat with
             | some s => s.seat_number == new_seat_number
             | none => false) then
      (.ok booking, db₀)
    else
      match reserve_seat noSteal db₀ booking.flight_id booking.seat_class
          (some new_seat_number) with
      | (none, db₁, _) => (.error .seatUnavailable, db₁)
      | (some new_seat, db₁, _) =>
        let db₂ :=
          match currentSeat with
          | some old =>
            if old.id ≠ new_seat.id then setSeatAvailability db₁ old.id true else db₁
          | none => db₁
        let db₃ := setBookingSeat db₂ booking.id new_seat.id
        (.ok { booking with seat_id := some new_seat.id }, db₃)

/-- BookingService.change_seat at the committed-state level (rollback on
exception, as for `create_booking`). -/
def change_seat (db₀ : DB) (booking_id : Nat) (new_seat_number : String) :
    Except BookingError Booking × DB :=
  match change_seat_txn db₀ booking_id new_seat_number with
  | (.ok b, db') => (.ok b, db')
  | (.error e, _) => (.error e, db₀)

/-- Outcome of one transaction attempt as the retry loop sees it:
a value, a psycopg2 TransactionRollbackError, or any other exception. -/
inductive TxOutcome (α : Type) where
  | ok : α → TxOutcome α
  | rollback : TxOutcome α
  | fatal : BookingError → TxOutcome α
  deriving DecidableEq

/-- Result of the retry coordinator: the final outcome, how many times the
transaction was invoked, and the sleeps performed, in milliseconds. -/
structure RetryResult (α : Type) where
  result : Except BookingError α
  callsMade : Nat
  sleeps : List ℕ

/-- The retry loop shared by create_booking and change_seat
(booking_service.py lines 242-261 and 1373-1387): `attempt` is the loop
index, `remaining` the attempts the `range(max_retries)` loop still has.
On a rollback with further attempts left, sleep `10·2^attempt` milliseconds
(`retry_delay * (2 ** attempt)` seconds with `retry_delay = 0.01`) and
continue; on the last attempt raise the concurrency error.  Any other
exception propagates at once.  The `remaining = 0` branch mirrors the
`for` loop falling through, which cannot happen when it starts with
`max_retries = 5 > 0` attempts.
The loop body is split off as `retryHandle` so that each iteration is a
plain case analysis on the attempt's outcome: return the value, propagate
any non-serialization error at once, and on a serialization rollback either
raise the concurrency error (when this was the last attempt) or sleep and
hand over to the continuation `next`. -/
def retryHandle (next : List ℕ → RetryResult α) (attempt remaining : Nat)
    (sleeps : List ℕ) : TxOutcome α → RetryResult α
  | .ok a => ⟨.ok a, attempt + 1, sleeps⟩
  | .fatal e => ⟨.error e, attempt + 1, sleeps⟩
  | .rollback =>
    match remaining with
    | 0 => ⟨.error .concurrencyConflict, attempt + 1, sleeps⟩
    | _ + 1 => next (sleeps ++ [10 * 2 ^ attempt])

/-- The recursion of the retry loop: with `remaining + 1` attempts left, run
the transaction for the current attempt and dispatch on its outcome via
`retryHandle`, the continuation being the loop at the next attempt index. -/
def retryGo (txn : Nat → TxOutcome α) : Nat → Nat → List ℕ → RetryResult α
  | attempt, remaining + 1, sleeps =>
    retryHandle (retryGo txn (attempt + 1) remaining) attempt remaining sleeps (txn attempt)
  | attempt, 0, sleeps => ⟨.error .concurrencyConflict, attempt, sleeps⟩

/-- The retry coordinator with `max_retries = 5`, wrapping the transaction
attempts of create_booking and change_seat. -/
def withSerializationRetry (txn : Nat → TxOutcome α) : RetryResult α :=
  retryGo txn 0 5 []

/-- Number of bookings of the given flight and class whose status is PENDING
or CONFIRMED — the active-holder count of the spec's counter invariant. -/
def activeCountOn (bs : List Booking) (flight_id : Nat) (c : SeatClass) : Nat :=
  (bs.filter (fun b => b.flight_id == flight_id && b.seat_class == c && isActive b)).length

/-- The spec's counter invariant for an arbitrary (operation-independent)
capacity assignment: on every flight row and class, availability plus the
active-booking count equals the capacity. -/
def counterInvariant (cap : Nat → SeatClass → ℤ) (db : DB) : Prop :=
  ∀ fl ∈ db.flights, ∀ c : SeatClass,
    availOf fl c + (activeCountOn db.bookings fl.id c : ℤ) = cap fl.id c

instance decCounterInvariant (cap : Nat → SeatClass → ℤ) (db : DB) :
    Decidable (counterInvariant cap db) := by
  unfold counterInvariant; infer_instance

/-- Primary-key uniqueness, guaranteed by the store's PRIMARY KEY
constraints. -/
structure WF (db : DB) : Prop where
  flights_nodup : (db.flights.map Flight.id).Nodup
  bookings_nodup : (db.bookings.map Booking.id).Nodup
  seats_nodup : (db.seats.map Seat.id).Nodup

/-! Concrete fixtures used to instantiate the theorems below on explicit
states: a scheduled flight with one economy seat left and an exhausted
business cabin, two economy seat rows, a pending and a confirmed booking,
and one bronze frequent-flyer account. -/

def wFlight : Flight :=
  { id := 1, base_price_economy := 100, base_price_business := 200, base_price_first := 300,
    available_economy := 1, available_business := 0, available_first := 0,
    status := "scheduled" }

def wSeat1 : Seat :=
  { id := 1, flight_id := 1, seat_number := "01A", seat_class := .economy,
    is_available := false }

def wSeat2 : Seat :=
  { id := 2, flight_id := 1, seat_number := "02B", seat_class := .economy,
    is_available := true }

def wBookingPending : Booking :=
  { id := 1, booking_reference := "ABC123", passenger_id := 7, flight_id := 1,
    seat_id := some 1, seat_class := .economy, price := 100, status := .pending }

def wBookingConfirmed : Booking :=
  { id := 2, booking_reference := "DEF456", passenger_id := 7, flight_id := 1,
    seat_id := none, seat_class := .economy, price := 100, status := .confirmed }

def wFlyer : FrequentFlyer :=
  { id := 1, passenger_id := 7, points := 100, tier := .bronze }

def wDB : DB :=
  { flights := [wFlight], seats := [wSeat1, wSeat2], bookings := [wBookingPending],
    passengers := [7], flyers := [] }

/-- A state a rival transaction can leave behind: the economy counter is
already zero although one economy seat row is still flagged available. -/
def wFlight0 : Flight :=
  { id := 1, base_price_economy := 100, base_price_business := 200, base_price_first := 300,
    available_economy := 0, available_business := 0, available_first := 0,
    status := "scheduled" }

def wDB0 : DB :=
  { flights := [wFlight0], seats := [wSeat2], bookings := [], passengers := [7],
    flyers := [] }

/-! Helper lemmas. -/

theorem truncToInt_intCast (n : ℤ) : truncToInt (n : ℚ) = n := by
  unfold truncToInt
  split <;> simp

theorem truncToInt_of_nonneg {q : ℚ} (h : 0 ≤ q) : truncToInt q = ⌊q⌋ :=
  if_pos h

theorem retryGo_step {α : Type} (txn : Nat → TxOutcome α) (a r : Nat) (s : List ℕ) :
    retryGo txn a (r + 1) s = retryHandle (retryGo txn (a + 1) r) a r s (txn a) := by
  simp [retryGo]

theorem retryGo_ok {α : Type} {txn : Nat → TxOutcome α} {a : Nat} {b : α}
    (h : txn a = .ok b) (r s) (hr : 0 < r) :
    retryGo txn a r s = ⟨.ok b, a + 1, s⟩ := by
  match r, hr with
  | r + 1, _ => rw [retryGo_step, h]; rfl

theorem retryGo_fatal {α : Type} {txn : Nat → TxOutcome α} {a : Nat} {e : BookingError}
    (h : txn a = .fatal e) (r s) (hr : 0 < r) :
    retryGo txn a r s = ⟨.error e, a + 1, s⟩ := by
  match r, hr with
  | r + 1, _ => rw [retryGo_step, h]; rfl

theorem retryGo_rollback_last {α : Type} {txn : Nat → TxOutcome α} {a : Nat}
    (h : txn a = .rollback) (s : List ℕ) :
    retryGo txn a 1 s = ⟨.error .concurrencyConflict, a + 1, s⟩ := by
  rw [retryGo_step, h]; rfl

theorem retryGo_rollback_step {α : Type} {txn : Nat → TxOutcome α} {a : Nat}
    (h : txn a = .rollback) (r s) (hr : 0 < r) :
    retryGo txn a (r + 1) s = retryGo txn (a + 1) r (s ++ [10 * 2 ^ a]) := by
  match r, hr with
  | r + 1, _ => rw [retryGo_step, h]; rfl

theorem retryGo_callsMade_le {α : Type} (txn : Nat → TxOutcome α) :
    ∀ r a s, (retryGo txn a r s).callsMade ≤ a + r := by
  intro r
  induction r with
  | zero => intro a s; simp [retryGo]
  | succ r ih =>
    intro a s
    rcases h : txn a with b | _ | e
    · rw [retryGo_ok h _ _ (Nat.succ_pos r)]; dsimp only; omega
    · rcases r with _ | r
      · rw [retryGo_rollback_last h]
      · rw [retryGo_rollback_step h _ _ (Nat.succ_pos r)]
        exact le_trans (ih (a + 1) (s ++ [10 * 2 ^ a])) (by omega)
    · rw [retryGo_fatal h _ _ (Nat.succ_pos r)]; dsimp only; omega

theorem retryGo_rollback_before {α : Type} (txn : Nat → TxOutcome α) :
    ∀ r a s j, a ≤ j → j + 1 < (retryGo txn a r s).callsMade → txn j = .rollback := by
  intro r
  induction r with
  | zero =>
    intro a s j haj hlt
    exact absurd hlt (by simp [retryGo]; omega)
  | succ r ih =>
    intro a s j haj hlt
    rcases h : txn a with b | _ | e
    · rw [retryGo_ok h _ _ (Nat.succ_pos r)] at hlt; dsimp only at hlt; omega
    · rcases r with _ | r
      · rw [retryGo_rollback_last h] at hlt; dsimp only at hlt; omega
      · rw [retryGo_rollback_step h _ _ (Nat.succ_pos r)] at hlt
        rcases Nat.eq_or_lt_of_le haj with rfl | hj
        · exact h
        · exact ih (a + 1) (s ++ [10 * 2 ^ a]) j hj hlt
    · rw [retryGo_fatal h _ _ (Nat.succ_pos r)] at hlt; dsimp only at hlt; omega

@[simp] theorem setSeatAvailability_flights (db : DB) (i : Nat) (v : Bool) :
    (setSeatAvailability db i v).flights = db.flights := rfl

@[simp] theorem setSeatAvailability_bookings (db : DB) (i : Nat) (v : Bool) :
    (setSeatAvailability db i v).bookings = db.bookings := rfl

@[simp] theorem setSeatAvailability_passengers (db : DB) (i : Nat) (v : Bool) :
    (setSeatAvailability db i v).passengers = db.passengers := rfl

@[simp] theorem setSeatAvailability_flyers (db : DB) (i : Nat) (v : Bool) :
    (setSeatAvailability db i v).flyers = db.flyers := rfl

@[simp] theorem setBookingStatus_flights (db : DB) (i : Nat) (st : BookingStatus) :
    (setBookingStatus db i st).flights = db.flights := rfl

@[simp] theorem setBookingStatus_seats (db : DB) (i : Nat) (st : BookingStatus) :
    (setBookingStatus db i st).seats = db.seats := rfl

@[simp] theorem setBookingStatus_passengers (db : DB) (i : Nat) (st : BookingStatus) :
    (setBookingStatus db i st).passengers = db.passengers := rfl

@[simp] theorem setBookingStatus_flyers (db : DB) (i : Nat) (st : BookingStatus) :
    (setBookingStatus db i st).flyers = db.flyers := rfl

@[simp] theorem setBookingSeat_flights (db : DB) (i sid : Nat) :
    (setBookingSeat db i sid).flights = db.flights := rfl

@[simp] theorem setBookingSeat_seats (db : DB) (i sid : Nat) :
    (setBookingSeat db i sid).seats = db.seats := rfl

@[simp] theorem setBookingSeat_passengers (db : DB) (i sid : Nat) :
    (setBookingSeat db i sid).passengers = db.passengers := rfl

@[simp] theorem setBookingSeat_flyers (db : DB) (i sid : Nat) :
    (setBookingSeat db i sid).flyers = db.flyers := rfl

@[simp] theorem setFlyer_flights (db : DB) (i : Nat) (p : ℤ) (t : LoyaltyTier) :
    (setFlyer db i p t).flights = db.flights := rfl

@[simp] theorem setFlyer_seats (db : DB) (i : Nat) (p : ℤ) (t : LoyaltyTier) :
    (setFlyer db i p t).seats = db.seats := rfl

@[simp] theorem setFlyer_bookings (db : DB) (i : Nat) (p : ℤ) (t : LoyaltyTier) :
    (setFlyer db i p t).bookings = db.bookings := rfl

@[simp] theorem setFlyer_passengers (db : DB) (i : Nat) (p : ℤ) (t : LoyaltyTier) :
    (setFlyer db i p t).passengers = db.passengers := rfl

@[simp] theorem adjust_availability_seats (db : DB) (f : Nat) (c : SeatClass) (d : ℤ) :
    ((adjust_availability db f c d).2).seats = db.seats := rfl

@[simp] theorem adjust_availability_bookings (db : DB) (f : Nat) (c : SeatClass) (d : ℤ) :
    ((adjust_availability db f c d).2).bookings = db.bookings := rfl

@[simp] theorem adjust_availability_passengers (db : DB) (f : Nat) (c : SeatClass) (d : ℤ) :
    ((adjust_availability db f c d).2).passengers = db.passengers := rfl

@[simp] theorem adjust_availability_flyers (db : DB) (f : Nat) (c : SeatClass) (d : ℤ) :
    ((adjust_availability db f c d).2).flyers = db.flyers := rfl

@[simp] theorem findFlyer_setBookingStatus (db : DB) (i : Nat) (st : BookingStatus) (p : Nat) :
    findFlyer (setBookingStatus db i st) p = findFlyer db p := rfl

@[simp] theorem findFlyer_setSeatAvailability (db : DB) (i : Nat) (v : Bool) (p : Nat) :
    findFlyer (setSeatAvailability db i v) p = findFlyer db p := rfl

@[simp] theorem findFlyer_adjust_availability
    (db : DB) (f : Nat) (c : SeatClass) (d : ℤ) (p : Nat) :
    findFlyer ((adjust_availability db f c d).2) p = findFlyer db p := rfl

theorem setAvail_id (fl : Flight) (c : SeatClass) (v : ℤ) : (setAvail fl c v).id = fl.id := by
  cases c <;> rfl

theorem availOf_setAvail_self (fl : Flight) (c : SeatClass) (v : ℤ) :
    availOf (setAvail fl c v) c = v := by
  cases c <;> rfl

theorem availOf_setAvail_ne (fl : Flight) {c c' : SeatClass} (v : ℤ) (h : c' ≠ c) :
    availOf (setAvail fl c v) c' = availOf fl c' := by
  cases c <;> cases c' <;> first | rfl | exact absurd rfl h

theorem find?_key_eq_some_of_nodup {α : Type} (key : α → Nat) {l : List α}
    (hnd : (l.map key).Nodup) {x : α} (hx : x ∈ l) :
    l.find? (fun y => key y == key x) = some x := by
  induction l with
  | nil => cases hx
  | cons a t ih =>
    rw [List.map_cons, List.nodup_cons] at hnd
    rcases List.mem_cons.mp hx with rfl | hxt
    · exact List.find?_cons_of_pos _ (by simp)
    · have hne : key a ≠ key x := by
        intro he
        exact hnd.1 (he ▸ List.mem_map_of_mem key hxt)
      rw [List.find?_cons_of_neg _ (by simpa using hne)]
      exact ih hnd.2 hxt

theorem adjustMatches_iff {fid : Nat} {c : SeatClass} {delta : ℤ} {f : Flight} :
    adjustMatches fid c delta f = true ↔ f.id = fid ∧ 0 ≤ availOf f c + delta ∨
      f.id = fid ∧ 0 ≤ delta := by
  unfold adjustMatches
  rcases lt_or_le delta 0 with h | h
  · rw [if_pos h]
    simp only [Bool.and_eq_true, beq_iff_eq, decide_eq_true_eq]
    constructor
    · rintro ⟨h1, h2⟩
      rw [abs_of_neg h] at h2
      exact Or.inl ⟨h1, by omega⟩
    · rintro (⟨h1, h2⟩ | ⟨h1, h2⟩)
      · exact ⟨h1, by rw [abs_of_neg h]; omega⟩
      · omega
  · rw [if_neg (not_lt.mpr h)]
    simp only [Bool.and_true, beq_iff_eq]
    constructor
    · intro h1; exact Or.inr ⟨h1, h⟩
    · rintro (⟨h1, _⟩ | ⟨h1, _⟩) <;> exact h1

theorem adjust_true_iff {db : DB} {fid : Nat} {c : SeatClass} {delta : ℤ}
    (hnd : (db.flights.map Flight.id).Nodup)
    (hpos : ∀ fl ∈ db.flights, 0 ≤ availOf fl c) :
    (adjust_availability db fid c delta).1 = true ↔
      ∃ fl, findFlight db fid = some fl ∧ 0 ≤ availOf fl c + delta := by
  show (db.flights.any _) = true ↔ _
  rw [List.any_eq_true]
  constructor
  · rintro ⟨f, hf, hm⟩
    have hfind : findFlight db fid = some f := by
      have h2 := find?_key_eq_some_of_nodup Flight.id hnd hf
      have hid : f.id = fid := by
        rcases adjustMatches_iff.mp hm with ⟨h1, _⟩ | ⟨h1, _⟩ <;> exact h1
      rw [hid] at h2
      exact h2
    rcases adjustMatches_iff.mp hm with ⟨_, hge⟩ | ⟨_, hd⟩
    · exact ⟨f, hfind, hge⟩
    · exact ⟨f, hfind, by have := hpos f hf; omega⟩
  · rintro ⟨fl, hfind, hge⟩
    have hmem := List.mem_of_find?_eq_some hfind
    have hid : fl.id = fid := by simpa using List.find?_some hfind
    exact ⟨fl, hmem, adjustMatches_iff.mpr (Or.inl ⟨hid, hge⟩)⟩

theorem adjust_false_eq {db : DB} {fid : Nat} {c : SeatClass} {delta : ℤ}
    (h : (adjust_availability db fid c delta).1 = false) :
    (adjust_availability db fid c delta).2 = db := by
  have hall : ∀ f ∈ db.flights, ¬ adjustMatches fid c delta f = true := by
    have h2 : db.flights.any (adjustMatches fid c delta) = false := h
    simpa [List.any_eq_false] using h2
  show { db with flights := _ } = db
  have hmap : db.flights.map (fun f =>
      if adjustMatches fid c delta f then setAvail f c (availOf f c + delta) else f)
      = db.flights := by
    rw [List.map_congr_left (g := id) (fun a ha => by rw [if_neg (hall a ha)]; rfl),
      List.map_id]
  rw [hmap]

theorem adjust_of_findFlight_none {db : DB} {fid : Nat} {c : SeatClass} {delta : ℤ}
    (h : findFlight db fid = none) :
    (adjust_availability db fid c delta).1 = false := by
  have hall := List.find?_eq_none.mp h
  show db.flights.any _ = false
  rw [List.any_eq_false]
  intro f hf hm
  have hid : f.id = fid := by
    rcases adjustMatches_iff.mp hm with ⟨h1, _⟩ | ⟨h1, _⟩ <;> exact h1
  exact hall f hf (by simp [hid])

theorem findFlight_adjust (db : DB) (fid : Nat) (c : SeatClass) (delta : ℤ) (fid' : Nat) :
    findFlight ((adjust_availability db fid c delta).2) fid'
      = (findFlight db fid').map (fun f =>
          if adjustMatches fid c delta f then setAvail f c (availOf f c + delta) else f) := by
  unfold findFlight adjust_availability
  rw [List.find?_map]
  have hcomp : ((fun g : Flight => g.id == fid')
        ∘ (fun f => if adjustMatches fid c delta f then setAvail f c (availOf f c + delta) else f))
      = (fun g : Flight => g.id == fid') := by
    funext g
    by_cases hm : adjustMatches fid c delta g <;> simp [hm, setAvail_id]
  rw [hcomp]

@[simp] theorem findBooking_setSeatAvailability (db : DB) (i : Nat) (v : Bool) (bid : Nat) :
    findBooking (setSeatAvailability db i v) bid = findBooking db bid := rfl

@[simp] theorem findBooking_adjust_availability
    (db : DB) (f : Nat) (c : SeatClass) (d : ℤ) (bid : Nat) :
    findBooking ((adjust_availability db f c d).2) bid = findBooking db bid := rfl

@[simp] theorem findBooking_setFlyer (db : DB) (i : Nat) (p : ℤ) (t : LoyaltyTier) (bid : Nat) :
    findBooking (setFlyer db i p t) bid = findBooking db bid := rfl

theorem findBooking_setBookingStatus (db : DB) (i : Nat) (st : BookingStatus) (bid : Nat) :
    findBooking (setBookingStatus db i st) bid
      = (findBooking db bid).map (fun b => if b.id == i then { b with status := st } else b) := by
  unfold findBooking setBookingStatus
  rw [List.find?_map]
  have hcomp : ((fun b : Booking => b.id == bid)
        ∘ fun b => if b.id == i then { b with status := st } else b)
      = fun b : Booking => b.id == bid := by
    funext b
    by_cases h : b.id = i <;> simp [h]
  rw [hcomp]

theorem findBooking_apply_cancel (db : DB) (b : Booking) (bid' : Nat)
    (h : b.status ≠ .cancelled) :
    findBooking ((apply_cancellation_effects db b).2) bid'
      = (findBooking db bid').map
          (fun x => if x.id == b.id then { x with status := .cancelled } else x) := by
  unfold apply_cancellation_effects
  rw [if_neg h]
  rcases hs : b.seat_id with _ | sid <;>
    simp only [hs] <;>
    (split <;> (try split) <;> (try split)) <;>
    simp [findBooking_setBookingStatus]

theorem calculate_tier_lt_25000 {p : ℤ} (h : p < 25000) : calculate_tier p = .bronze := by
  unfold calculate_tier
  rw [if_neg (by omega), if_neg (by omega), if_neg (by omega)]

theorem calculate_tier_silver {p : ℤ} (h1 : 25000 ≤ p) (h2 : p < 50000) :
    calculate_tier p = .silver := by
  unfold calculate_tier
  rw [if_neg (by omega), if_neg (by omega), if_pos (by omega)]

theorem calculate_tier_gold {p : ℤ} (h1 : 50000 ≤ p) (h2 : p < 100000) :
    calculate_tier p = .gold := by
  unfold calculate_tier
  rw [if_neg (by omega), if_pos (by omega)]

theorem calculate_tier_platinum {p : ℤ} (h : 100000 ≤ p) : calculate_tier p = .platinum := by
  unfold calculate_tier
  rw [if_pos (by omega)]

theorem key_injective_of_nodup {α : Type} (key : α → Nat) {l : List α}
    (hnd : (l.map key).Nodup) {x y : α} (hx : x ∈ l) (hy : y ∈ l)
    (hk : key x = key y) : x = y := by
  have h1 := find?_key_eq_some_of_nodup key hnd hx
  have h2 := find?_key_eq_some_of_nodup key hnd hy
  rw [hk, h2] at h1
  exact (Option.some.injEq _ _ ▸ h1).symm

theorem minBySeatNumber_eq_none {l : List Seat} : minBySeatNumber l = none ↔ l = [] := by
  cases l with
  | nil => simp [minBySeatNumber]
  | cons s t =>
    simp only [minBySeatNumber]
    constructor
    · intro h
      rcases hm : minBySeatNumber t with _ | m <;> rw [hm] at h <;> cases h
    · intro h; cases h

theorem minBySeatNumber_mem {l : List Seat} :
    ∀ {s : Seat}, minBySeatNumber l = some s → s ∈ l := by
  induction l with
  | nil => intro s h; cases h
  | cons a t ih =>
    intro s h
    simp only [minBySeatNumber] at h
    rcases hm : minBySeatNumber t with _ | m <;> rw [hm] at h <;>
      have h' := Option.some.inj h <;> rw [← h']
    · exact List.mem_cons_self a t
    · by_cases hlt : m.seat_number.data < a.seat_number.data
      · rw [if_pos hlt]
        exact List.mem_cons_of_mem a (ih hm)
      · rw [if_neg hlt]
        exact List.mem_cons_self a t

theorem minBySeatNumber_min {l : List Seat} :
    ∀ {s : Seat}, minBySeatNumber l = some s →
      ∀ t ∈ l, ¬ t.seat_number.data < s.seat_number.data := by
  induction l with
  | nil => intro s h; cases h
  | cons a u ih =>
    intro s h
    simp only [minBySeatNumber] at h
    rcases hm : minBySeatNumber u with _ | m <;> rw [hm] at h <;>
      have h' := Option.some.inj h <;> rw [← h']
    · intro t ht
      rcases List.mem_cons.mp ht with rfl | ht
      · exact lt_irrefl _
      · exact absurd (minBySeatNumber_eq_none.mp hm ▸ ht) (List.not_mem_nil t)
    · intro t ht
      rcases List.mem_cons.mp ht with rfl | ht2
      · by_cases hlt : m.seat_number.data < t.seat_number.data
        · rw [if_pos hlt]; exact lt_asymm hlt
        · rw [if_neg hlt]; exact lt_irrefl _
      · by_cases hlt : m.seat_number.data < a.seat_number.data
        · rw [if_pos hlt]; exact ih hm t ht2
        · rw [if_neg hlt]
          intro hta
          exact ih hm t ht2 (lt_of_lt_of_le hta (not_lt.mp hlt))

theorem findCandidate_some_spec {db : DB} {fid : Nat} {c : SeatClass} {sn : Option String}
    {cand : Seat} (h : findCandidate db fid c sn = some cand) :
    cand ∈ db.seats ∧ seatMatches fid c cand = true
      ∧ (∀ s, sn = some s → cand.seat_number = s) := by
  rcases sn with _ | s
  · unfold findCandidate at h
    have hmem := minBySeatNumber_mem h
    exact ⟨List.mem_of_mem_filter hmem, List.of_mem_filter hmem, fun s hs => by cases hs⟩
  · unfold findCandidate at h
    have hp := List.find?_some h
    have hmem := List.mem_of_find?_eq_some h
    simp only [Bool.and_eq_true, beq_iff_eq] at hp
    exact ⟨hmem, hp.1, fun s' hs' => by cases hs'; exact hp.2⟩

theorem findCandidate_auto_min {db : DB} {fid : Nat} {c : SeatClass} {cand : Seat}
    (h : findCandidate db fid c none = some cand) :
    ∀ t ∈ db.seats, seatMatches fid c t = true →
      ¬ t.seat_number.data < cand.seat_number.data := by
  intro t ht hm
  exact minBySeatNumber_min h t (List.mem_filter.mpr ⟨ht, hm⟩)

theorem findCandidate_auto_none {db : DB} {fid : Nat} {c : SeatClass} :
    findCandidate db fid c none = none ↔
      ∀ t ∈ db.seats, seatMatches fid c t = false := by
  unfold findCandidate
  rw [minBySeatNumber_eq_none, List.filter_eq_nil_iff]
  constructor
  · intro h t ht
    rcases hb : seatMatches fid c t with _ | _
    · rfl
    · exact absurd hb (h t ht)
  · intro h t ht
    rw [h t ht]; exact Bool.false_ne_true

theorem findCandidate_specific_none {db : DB} {fid : Nat} {c : SeatClass} {s : String} :
    findCandidate db fid c (some s) = none ↔
      ∀ t ∈ db.seats, ¬ (seatMatches fid c t = true ∧ t.seat_number = s) := by
  unfold findCandidate
  rw [List.find?_eq_none]
  constructor
  · intro h t ht ⟨h1, h2⟩
    exact h t ht (by simp [h1, h2])
  · intro h t ht hb
    simp only [Bool.and_eq_true, beq_iff_eq] at hb
    exact h t ht ⟨hb.1, hb.2⟩

theorem reserveStep_none (cont : DB → Option Seat × DB × List Seat) (db : DB)
    (e : Bool) (sn : Option String) :
    reserveStep cont db e sn none = (none, db, []) := by
  rcases e <;> rcases sn <;> rfl

theorem reserveStep_won (cont : DB → Option Seat × DB × List Seat) (db : DB)
    (sn : Option String) (cand : Seat) :
    reserveStep cont db false sn (some cand)
      = (some { cand with is_available := false },
         setSeatAvailability db cand.id false, [cand]) := by
  rcases sn <;> rfl

theorem reserveStep_lost_specific (cont : DB → Option Seat × DB × List Seat) (db : DB)
    (s : String) (cand : Seat) :
    reserveStep cont db true (some s) (some cand)
      = (none, setSeatAvailability db cand.id false, [cand]) := rfl

theorem reserveStep_lost_auto (cont : DB → Option Seat × DB × List Seat) (db : DB)
    (cand : Seat) :
    reserveStep cont db true none (some cand)
      = ((cont (setSeatAvailability db cand.id false)).1,
         (cont (setSeatAvailability db cand.id false)).2.1,
         cand :: (cont (setSeatAvailability db cand.id false)).2.2) := rfl

theorem reserveGo_succ (fid : Nat) (c : SeatClass) (sn : Option String)
    (fuel : Nat) (env : Nat → Bool) (db : DB) :
    reserveGo fid c sn (fuel + 1) env db
      = reserveStep (reserveGo fid c sn fuel (fun n => env (n + 1))) db
          (env 0) sn (findCandidate db fid c sn) := by
  simp [reserveGo]

theorem reserveGo_frame (fid : Nat) (c : SeatClass) (sn : Option String) :
    ∀ (fuel : Nat) (env : Nat → Bool) (db : DB),
      ((reserveGo fid c sn fuel env db).2.1).flights = db.flights
      ∧ ((reserveGo fid c sn fuel env db).2.1).bookings = db.bookings
      ∧ ((reserveGo fid c sn fuel env db).2.1).passengers = db.passengers
      ∧ ((reserveGo fid c sn fuel env db).2.1).flyers = db.flyers := by
  intro fuel
  induction fuel with
  | zero => intro env db; exact ⟨rfl, rfl, rfl, rfl⟩
  | succ fuel ih =>
    intro env db
    rw [reserveGo_succ]
    rcases hc : findCandidate db fid c sn with _ | cand
    · rw [reserveStep_none]
      exact ⟨rfl, rfl, rfl, rfl⟩
    · rcases he : env 0 with _ | _
      · rw [reserveStep_won]
        exact ⟨rfl, rfl, rfl, rfl⟩
      · rcases sn with _ | s
        · rw [reserveStep_lost_auto]
          have h4 := ih (fun n => env (n + 1)) (setSeatAvailability db cand.id false)
          simpa using h4
        · rw [reserveStep_lost_specific]
          exact ⟨rfl, rfl, rfl, rfl⟩

theorem DB_eq_of_fields {a b : DB} (h1 : a.flights = b.flights) (h2 : a.seats = b.seats)
    (h3 : a.bookings = b.bookings) (h4 : a.passengers = b.passengers)
    (h5 : a.flyers = b.flyers) : a = b := by
  cases a
  cases b
  dsimp only at h1 h2 h3 h4 h5
  subst h1 h2 h3 h4 h5
  rfl

theorem Seat_set_true_self {s : Seat} (h : s.is_available = true) :
    { s with is_available := true } = s := by
  obtain ⟨i, f, n, c, av⟩ := s
  rcases av with _ | _
  · exact absurd h (by simp)
  · rfl

theorem setSeatAvailability_restore {db : DB} (hnd : (db.seats.map Seat.id).Nodup)
    {cand : Seat} (hc : cand ∈ db.seats) (hav : cand.is_available = true) :
    setSeatAvailability (setSeatAvailability db cand.id false) cand.id true = db := by
  apply DB_eq_of_fields
  any_goals rfl
  show (db.seats.map (fun s =>
      if s.id == cand.id then { s with is_available := false } else s)).map (fun s =>
      if s.id == cand.id then { s with is_available := true } else s) = db.seats
  rw [List.map_map]
  rw [List.map_congr_left (g := id) ?_, List.map_id]
  intro s hs
  by_cases hid : s.id = cand.id
  · have hseq : s = cand := key_injective_of_nodup Seat.id hnd hs hc hid
    subst hseq
    simp only [Function.comp_apply, hid, beq_self_eq_true, if_pos]
    exact Seat_set_true_self hav
  · simp [Function.comp_apply, hid]

theorem reserve_noSteal_eq (db : DB) (fid : Nat) (c : SeatClass) (sn : Option String) :
    reserve_seat noSteal db fid c sn
      = match findCandidate db fid c sn with
        | none => (none, db, [])
        | some cand =>
          (some { cand with is_available := false },
           setSeatAvailability db cand.id false, [cand]) := by
  unfold reserve_seat
  rw [reserveGo_succ]
  rcases hc : findCandidate db fid c sn with _ | cand
  · rw [reserveStep_none]
  · exact reserveStep_won _ db sn cand

theorem reserve_noSteal_some {db : DB} {fid : Nat} {c : SeatClass} {sn : Option String}
    {seat : Seat} {dbR : DB} {tr : List Seat}
    (h : reserve_seat noSteal db fid c sn = (some seat, dbR, tr)) :
    ∃ cand, findCandidate db fid c sn = some cand
      ∧ seat = { cand with is_available := false }
      ∧ dbR = setSeatAvailability db cand.id false
      ∧ tr = [cand] := by
  rw [reserve_noSteal_eq] at h
  rcases hc : findCandidate db fid c sn with _ | cand <;> rw [hc] at h
  · cases h
  · simp only [Prod.mk.injEq, Option.some.injEq] at h
    exact ⟨cand, rfl, h.1.symm, h.2.1.symm, h.2.2.symm⟩

theorem reserve_noSteal_none {db : DB} {fid : Nat} {c : SeatClass} {sn : Option String}
    {dbR : DB} {tr : List Seat}
    (h : reserve_seat noSteal db fid c sn = (none, dbR, tr)) :
    dbR = db ∧ tr = [] ∧ findCandidate db fid c sn = none := by
  rw [reserve_noSteal_eq] at h
  rcases hc : findCandidate db fid c sn with _ | cand <;> rw [hc] at h
  · simp only [Prod.mk.injEq] at h
    exact ⟨h.2.1.symm, h.2.2.symm, rfl⟩
  · simp only [Prod.mk.injEq, reduceCtorEq] at h
    exact h.1.elim

theorem seatMatches_parts {fid : Nat} {c : SeatClass} {s : Seat}
    (h : seatMatches fid c s = true) :
    s.flight_id = fid ∧ s.seat_class = c ∧ s.is_available = true := by
  have h' : (s.flight_id = fid ∧ s.seat_class = c) ∧ s.is_available = true := by
    simpa [seatMatches] using h
  exact ⟨h'.1.1, h'.1.2, h'.2⟩

theorem decrementOrRelease_eq (db : DB) (fid : Nat) (c : SeatClass) (seat : Seat) :
    decrementOrRelease db fid c seat
      = if (adjust_availability db fid c (-1)).1 then (true, (adjust_availability db fid c (-1)).2)
        else (false, setSeatAvailability ((adjust_availability db fid c (-1)).2) seat.id true) :=
  rfl

theorem compensation_restores {db : DB} (hnd : (db.seats.map Seat.id).Nodup)
    {fid : Nat} {c : SeatClass} {sn : Option String} {seat : Seat} {dbR : DB} {tr : List Seat}
    (h : reserve_seat noSteal db fid c sn = (some seat, dbR, tr))
    {fid' : Nat} {c' : SeatClass}
    (hfail : (decrementOrRelease dbR fid' c' seat).1 = false) :
    (decrementOrRelease dbR fid' c' seat).2 = db := by
  obtain ⟨cand, hcand, hseat, hdbR, htr⟩ := reserve_noSteal_some h
  obtain ⟨hmem, hmatch, _⟩ := findCandidate_some_spec hcand
  have hav : cand.is_available = true := (seatMatches_parts hmatch).2.2
  rcases hb : (adjust_availability dbR fid' c' (-1)).1 with _ | _
  · rw [decrementOrRelease_eq, if_neg (by simp [hb])]
    dsimp only
    rw [adjust_false_eq hb]
    subst hdbR hseat
    exact setSeatAvailability_restore hnd hmem hav
  · exfalso
    have : (decrementOrRelease dbR fid' c' seat).1 = true := by
      rw [decrementOrRelease_eq, if_pos (by simp [hb])]
    rw [this] at hfail
    cases hfail

theorem create_txn_error_frame {db : DB} (hnd : (db.seats.map Seat.id).Nodup)
    (pid fid : Nat) (c : SeatClass) (sn : Option String) (auto : Bool)
    (ref : String) (nid : Nat) {e : BookingError}
    (h : (create_booking_txn db pid fid c sn auto ref nid).1 = .error e) :
    (create_booking_txn db pid fid c sn auto ref nid).2 = db := by
  unfold create_booking_txn at h ⊢
  by_cases hp : db.passengers.contains pid
  · rw [if_neg (not_not_intro hp)] at h ⊢
    rcases hf : findFlight db fid with _ | flight
    · simp [hf]
    · simp only [hf] at h ⊢
      by_cases hst : flight.status ≠ "scheduled"
      · rw [if_pos hst]
      · rw [if_neg hst] at h ⊢
        by_cases hav : availOf flight c ≤ 0
        · rw [if_pos hav]
        · rw [if_neg hav] at h ⊢
          rcases sn with _ | sn'
          · rcases auto with _ | _
            · rfl
            · rcases hr : reserve_seat noSteal db fid c none with ⟨os, db₁, tr⟩
              rw [hr] at h
              rcases os with _ | seat <;> dsimp only at h ⊢
              · exact (reserve_noSteal_none hr).1
              · rcases hd : (decrementOrRelease db₁ flight.id c seat).1 with _ | _
                · simp only [hd, Bool.false_eq_true, if_false] at h ⊢
                  exact compensation_restores hnd hr hd
                · simp [hd] at h
          · rcases auto with _ | _ <;> dsimp only at h ⊢ <;>
              (rcases hr : reserve_seat noSteal db fid c (some sn') with ⟨os, db₁, tr⟩
               rw [hr] at h
               rcases os with _ | seat <;> dsimp only at h ⊢)
            · exact (reserve_noSteal_none hr).1
            · rcases hd : (decrementOrRelease db₁ flight.id c seat).1 with _ | _
              · simp only [hd, Bool.false_eq_true, if_false] at h ⊢
                exact compensation_restores hnd hr hd
              · simp [hd] at h
            · exact (reserve_noSteal_none hr).1
            · rcases hd : (decrementOrRelease db₁ flight.id c seat).1 with _ | _
              · simp only [hd, Bool.false_eq_true, if_false] at h ⊢
                exact compensation_restores hnd hr hd
              · simp [hd] at h
  · rw [if_pos (by simpa using hp)] at h ⊢

theorem create_booking_error_frame {db : DB}
    (pid fid : Nat) (c : SeatClass) (sn : Option String) (auto : Bool)
    (ref : String) (nid : Nat) {e : BookingError}
    (h : (create_booking db pid fid c sn auto ref nid).1 = .error e) :
    (create_booking db pid fid c sn auto ref nid).2 = db := by
  unfold create_booking at h ⊢
  rcases hr : create_booking_txn db pid fid c sn auto ref nid with ⟨res, db'⟩
  rcases res with b | e' <;> simp only [hr] at h ⊢
  cases h

theorem countP_lt_of_witness {α : Type} {l : List α} {p q : α → Bool}
    (hle : ∀ a ∈ l, q a = true → p a = true)
    {x : α} (hx : x ∈ l) (hp : p x = true) (hq : q x = false) :
    l.countP q < l.countP p := by
  obtain ⟨s, t, rfl⟩ := List.append_of_mem hx
  rw [List.countP_append, List.countP_append, List.countP_cons_of_pos _ _ hp,
    List.countP_cons_of_neg _ _ (by simp [hq])]
  have hs : s.countP q ≤ s.countP p :=
    List.countP_mono_left fun a ha => hle a (by simp [ha])
  have ht : t.countP q ≤ t.countP p :=
    List.countP_mono_left fun a ha => hle a (by simp [ha])
  omega

theorem mem_of_flip_matches {db : DB} {i fid : Nat} {c : SeatClass} {t : Seat}
    (ht : t ∈ (setSeatAvailability db i false).seats)
    (hm : seatMatches fid c t = true) : t ∈ db.seats := by
  obtain ⟨t₀, ht₀, heq⟩ := List.mem_map.mp ht
  by_cases hid : t₀.id = i
  · exfalso
    rw [if_pos (by simp [hid])] at heq
    have hav := (seatMatches_parts hm).2.2
    rw [← heq] at hav
    cases hav
  · rw [if_neg (by simp [hid])] at heq
    exact heq ▸ ht₀

theorem availSeatCount_flip_lt {db : DB} {fid : Nat} {c : SeatClass} {cand : Seat}
    (hmem : cand ∈ db.seats) (hm : seatMatches fid c cand = true) :
    availSeatCount (setSeatAvailability db cand.id false) fid c
      < availSeatCount db fid c := by
  unfold availSeatCount
  rw [show (setSeatAvailability db cand.id false).seats
      = db.seats.map (fun s => if s.id == cand.id then { s with is_available := false } else s)
    from rfl]
  rw [List.countP_map]
  apply countP_lt_of_witness (p := seatMatches fid c) ?_ hmem hm ?_
  · intro a ha hqa
    simp only [Function.comp_apply] at hqa
    by_cases hid : a.id = cand.id
    · rw [if_pos (by simp [hid])] at hqa
      have hav := (seatMatches_parts hqa).2.2
      cases hav
    · rwa [if_neg (by simp [hid])] at hqa
  · simp only [Function.comp_apply, beq_self_eq_true, if_pos]
    rcases hb : seatMatches fid c { cand with is_available := false } with _ | _
    · rfl
    · have hav := (seatMatches_parts hb).2.2
      cases hav

theorem availSeatCount_le_length (db : DB) (fid : Nat) (c : SeatClass) :
    availSeatCount db fid c ≤ db.seats.length :=
  List.countP_le_length _

theorem reserveGo_fuel_irrel (fid : Nat) (c : SeatClass) (sn : Option String) :
    ∀ (fuel₁ fuel₂ : Nat) (env : Nat → Bool) (db : DB),
      availSeatCount db fid c < fuel₁ → availSeatCount db fid c < fuel₂ →
      reserveGo fid c sn fuel₁ env db = reserveGo fid c sn fuel₂ env db := by
  intro fuel₁
  induction fuel₁ with
  | zero => intro fuel₂ env db h1 h2; omega
  | succ f ih =>
    intro fuel₂ env db h1 h2
    rcases fuel₂ with _ | g
    · omega
    · rw [reserveGo_succ, reserveGo_succ]
      rcases hc : findCandidate db fid c sn with _ | cand
      · rw [reserveStep_none, reserveStep_none]
      · rcases he : env 0 with _ | _
        · rw [reserveStep_won, reserveStep_won]
        · rcases sn with _ | s
          · rw [reserveStep_lost_auto, reserveStep_lost_auto]
            obtain ⟨hmem, hm, _⟩ := findCandidate_some_spec hc
            have hlt := availSeatCount_flip_lt hmem hm
            rw [ih g (fun n => env (n + 1)) (setSeatAvailability db cand.id false)
              (by omega) (by omega)]
          · rw [reserveStep_lost_specific, reserveStep_lost_specific]

theorem reserveGo_auto_none (fid : Nat) (c : SeatClass) :
    ∀ (fuel : Nat) (env : Nat → Bool) (db db' : DB) (tr : List Seat),
      availSeatCount db fid c < fuel →
      reserveGo fid c none fuel env db = (none, db', tr) →
      findCandidate db' fid c none = none := by
  intro fuel
  induction fuel with
  | zero => intro env db db' tr h1 _; omega
  | succ f ih =>
    intro env db db' tr h1 h
    rw [reserveGo_succ] at h
    rcases hc : findCandidate db fid c none with _ | cand <;> rw [hc] at h
    · rw [reserveStep_none] at h
      simp only [Prod.mk.injEq] at h
      exact h.2.1 ▸ hc
    · rcases he : env 0 with _ | _ <;> rw [he] at h
      · rw [reserveStep_won] at h
        simp only [Prod.mk.injEq, reduceCtorEq] at h
        exact h.1.elim
      · rw [reserveStep_lost_auto] at h
        simp only [Prod.mk.injEq] at h
        obtain ⟨hmem, hm, _⟩ := findCandidate_some_spec hc
        have hlt := availSeatCount_flip_lt hmem hm
        obtain ⟨h1', h2', _⟩ := h
        rcases hres : reserveGo fid c none f (fun n => env (n + 1))
            (setSeatAvailability db cand.id false) with ⟨o, d, l⟩
        rw [hres] at h1' h2'
        dsimp only at h1' h2'
        subst h1' h2'
        exact ih _ _ _ _ (by omega) hres

theorem reserveGo_auto_some (fid : Nat) (c : SeatClass) :
    ∀ (fuel : Nat) (env : Nat → Bool) (db : DB) (seat : Seat) (db' : DB) (tr : List Seat),
      availSeatCount db fid c < fuel →
      reserveGo fid c none fuel env db = (some seat, db', tr) →
      ∃ cand, cand ∈ db.seats ∧ seatMatches fid c cand = true
        ∧ seat = { cand with is_available := false }
        ∧ (∀ t ∈ db'.seats, seatMatches fid c t = true →
            ¬ t.seat_number.data < cand.seat_number.data) := by
  intro fuel
  induction fuel with
  | zero => intro env db seat db' tr h1 _; omega
  | succ f ih =>
    intro env db seat db' tr h1 h
    rw [reserveGo_succ] at h
    rcases hc : findCandidate db fid c none with _ | cand <;> rw [hc] at h
    · rw [reserveStep_none] at h
      simp only [Prod.mk.injEq, reduceCtorEq] at h
      exact h.1.elim
    · obtain ⟨hmem, hm, _⟩ := findCandidate_some_spec hc
      rcases he : env 0 with _ | _ <;> rw [he] at h
      · rw [reserveStep_won] at h
        simp only [Prod.mk.injEq, Option.some.injEq] at h
        refine ⟨cand, hmem, hm, h.1.symm, ?_⟩
        intro t ht hmt
        have ht0 : t ∈ db.seats := mem_of_flip_matches (h.2.1 ▸ ht) hmt
        exact findCandidate_auto_min hc t ht0 hmt
      · rw [reserveStep_lost_auto] at h
        simp only [Prod.mk.injEq] at h
        have hlt := availSeatCount_flip_lt hmem hm
        obtain ⟨h1', h2', _⟩ := h
        rcases hres : reserveGo fid c none f (fun n => env (n + 1))
            (setSeatAvailability db cand.id false) with ⟨o, d, l⟩
        rw [hres] at h1' h2'
        dsimp only at h1' h2'
        subst h1' h2'
        obtain ⟨cand', hmem', hm', hseat', hmin'⟩ := ih _ _ _ _ _ (by omega) hres
        exact ⟨cand', mem_of_flip_matches hmem' hm', hm', hseat', hmin'⟩

@[simp] theorem findSeat_setBookingStatus (db : DB) (i : Nat) (st : BookingStatus) (j : Nat) :
    findSeat (setBookingStatus db i st) j = findSeat db j := rfl

@[simp] theorem findSeat_setBookingSeat (db : DB) (i sid : Nat) (j : Nat) :
    findSeat (setBookingSeat db i sid) j = findSeat db j := rfl

@[simp] theorem findSeat_setFlyer (db : DB) (i : Nat) (p : ℤ) (t : LoyaltyTier) (j : Nat) :
    findSeat (setFlyer db i p t) j = findSeat db j := rfl

@[simp] theorem findSeat_adjust_availability
    (db : DB) (f : Nat) (c : SeatClass) (d : ℤ) (j : Nat) :
    findSeat ((adjust_availability db f c d).2) j = findSeat db j := rfl

theorem findSeat_of_bind {db : DB} {b : Booking} {os : Seat}
    (h : b.seat_id.bind (findSeat db) = some os) :
    findSeat db os.id = some os := by
  rcases hsid : b.seat_id with _ | sid
  · rw [hsid] at h; cases h
  · rw [hsid] at h
    have h' : findSeat db sid = some os := h
    have hid : os.id = sid := by
      have := List.find?_some h'
      simpa using this
    rw [hid]; exact h'

theorem findSeat_mem_of_nodup {db : DB} (hnd : (db.seats.map Seat.id).Nodup)
    {s : Seat} (hs : s ∈ db.seats) : findSeat db s.id = some s :=
  find?_key_eq_some_of_nodup Seat.id hnd hs

theorem findSeat_setSeatAvailability (db : DB) (i : Nat) (v : Bool) (j : Nat) :
    findSeat (setSeatAvailability db i v) j
      = (findSeat db j).map (fun s => if s.id == i then { s with is_available := v } else s) := by
  unfold findSeat setSeatAvailability
  rw [List.find?_map]
  have hcomp : ((fun s : Seat => s.id == j)
        ∘ fun s => if s.id == i then { s with is_available := v } else s)
      = fun s : Seat => s.id == j := by
    funext s
    by_cases h : s.id = i <;> simp [h]
  rw [hcomp]

theorem findBooking_setBookingSeat (db : DB) (i sid : Nat) (bid : Nat) :
    findBooking (setBookingSeat db i sid) bid
      = (findBooking db bid).map
          (fun x => if x.id == i then { x with seat_id := some sid } else x) := by
  unfold findBooking setBookingSeat
  rw [List.find?_map]
  have hcomp : ((fun x : Booking => x.id == bid)
        ∘ fun x => if x.id == i then { x with seat_id := some sid } else x)
      = fun x : Booking => x.id == bid := by
    funext x
    by_cases h : x.id = i <;> simp [h]
  rw [hcomp]

theorem change_txn_error_frame {db : DB} {bid : Nat} {sn : String} {e : BookingError}
    (h : (change_seat_txn db bid sn).1 = .error e) :
    (change_seat_txn db bid sn).2 = db := by
  rcases hfb : findBooking db bid with _ | b
  · simp [change_seat_txn, hfb]
  · unfold change_seat_txn at h ⊢
    rw [hfb] at h ⊢
    dsimp only at h ⊢
    by_cases hact : isActive b
    · rw [if_neg (not_not_intro hact)] at h ⊢
      by_cases hnoop : (match b.seat_id.bind (findSeat db) with
          | some s => s.seat_number == sn
          | none => false) = true
      · rw [if_pos hnoop] at h
        cases h
      · rw [if_neg hnoop] at h ⊢
        rcases hr : reserve_seat noSteal db b.flight_id b.seat_class (some sn)
          with ⟨os, db₁, tr⟩
        rcases os with _ | ns
        · exact (reserve_noSteal_none hr).1
        · rw [hr] at h
          simp at h
    · rw [if_pos hact]

theorem change_seat_error_frame {db : DB} {bid : Nat} {sn : String} {e : BookingError}
    (h : (change_seat db bid sn).1 = .error e) :
    (change_seat db bid sn).2 = db := by
  unfold change_seat at h ⊢
  rcases hr : change_seat_txn db bid sn with ⟨res, dbt⟩
  rcases res with bb | e' <;> simp only [hr] at h ⊢
  cases h

theorem setBookingSeat_bookings (db : DB) (i sid : Nat) :
    (setBookingSeat db i sid).bookings
      = db.bookings.map (fun b => if b.id == i then { b with seat_id := some sid } else b) :=
  rfl

theorem counterInvariant_ext {cap : Nat → SeatClass → ℤ} {db db' : DB}
    (hf : db'.flights = db.flights) (hb : db'.bookings = db.bookings)
    (h : counterInvariant cap db) : counterInvariant cap db' := by
  unfold counterInvariant at h ⊢
  rw [hf, hb]
  exact h

theorem adjust_flights_def (db : DB) (fid : Nat) (c : SeatClass) (d : ℤ) :
    ((adjust_availability db fid c d).2).flights
      = db.flights.map (fun f =>
          if adjustMatches fid c d f then setAvail f c (availOf f c + d) else f) := rfl

theorem activeCountOn_countP (bs : List Booking) (fid : Nat) (c : SeatClass) :
    activeCountOn bs fid c
      = bs.countP (fun b => b.flight_id == fid && b.seat_class == c && isActive b) := by
  unfold activeCountOn
  rw [List.countP_eq_length_filter]

theorem countP_map_key_update {α : Type} (key : α → Nat) (p : α → Bool) (f : α → α)
    {l : List α} (hnd : (l.map key).Nodup) {x : α} (hx : x ∈ l)
    (hf : ∀ y, key y ≠ key x → f y = y) :
    (l.map f).countP p + (if p x = true then 1 else 0)
      = l.countP p + (if p (f x) = true then 1 else 0) := by
  induction l with
  | nil => cases hx
  | cons a t ih =>
    rw [List.map_cons, List.nodup_cons] at hnd
    rcases List.mem_cons.mp hx with rfl | hxt
    · have htt : t.map f = t := by
        rw [List.map_congr_left (g := id)
          (fun y hy => hf y (fun he => hnd.1 (he ▸ List.mem_map_of_mem key hy))),
          List.map_id]
      rw [List.map_cons, htt, List.countP_cons, List.countP_cons]
      rcases hp1 : p x <;> rcases hp2 : p (f x) <;> simp [hp1, hp2]
    · have hne : key a ≠ key x := fun he => hnd.1 (he ▸ List.mem_map_of_mem key hxt)
      rw [List.map_cons, hf a hne, List.countP_cons, List.countP_cons]
      have hih := ih hnd.2 hxt
      omega

theorem activeCountOn_setBookingStatus {db : DB}
    (hnd : (db.bookings.map Booking.id).Nodup) {x : Booking} (hx : x ∈ db.bookings)
    (st : BookingStatus) (fid : Nat) (c : SeatClass) :
    activeCountOn (setBookingStatus db x.id st).bookings fid c
        + (if x.flight_id == fid && x.seat_class == c && isActive x then 1 else 0)
      = activeCountOn db.bookings fid c
        + (if x.flight_id == fid && x.seat_class == c
             && isActive { x with status := st } then 1 else 0) := by
  have h := countP_map_key_update Booking.id
    (fun b => b.flight_id == fid && b.seat_class == c && isActive b)
    (fun b => if b.id == x.id then { b with status := st } else b) hnd hx
    (fun y hy => if_neg (by simpa using hy))
  rw [activeCountOn_countP, activeCountOn_countP]
  have hsb : (setBookingStatus db x.id st).bookings
      = db.bookings.map (fun b => if b.id == x.id then { b with status := st } else b) := rfl
  rw [hsb]
  simpa using h

theorem activeCountOn_append (bs : List Booking) (b : Booking) (fid : Nat) (c : SeatClass) :
    activeCountOn (bs ++ [b]) fid c
      = activeCountOn bs fid c
        + (if b.flight_id == fid && b.seat_class == c && isActive b then 1 else 0) := by
  rw [activeCountOn_countP, activeCountOn_countP, List.countP_append]
  congr 1
  rw [List.countP_cons]
  simp

theorem activeCountOn_setBookingSeat (db : DB) (i sid : Nat) (fid : Nat) (c : SeatClass) :
    activeCountOn (setBookingSeat db i sid).bookings fid c
      = activeCountOn db.bookings fid c := by
  rw [activeCountOn_countP, activeCountOn_countP]
  have hsb : (setBookingSeat db i sid).bookings
      = db.bookings.map (fun b => if b.id == i then { b with seat_id := some sid } else b) := rfl
  rw [hsb, List.countP_map]
  have hpf : ((fun b : Booking => b.flight_id == fid && b.seat_class == c && isActive b)
        ∘ (fun b => if b.id == i then { b with seat_id := some sid } else b))
      = (fun b : Booking => b.flight_id == fid && b.seat_class == c && isActive b) := by
    funext b
    by_cases hb : b.id = i <;> simp [Function.comp, hb, isActive]
  rw [hpf]

theorem cancel_shape_invariant {cap : Nat → SeatClass → ℤ} {db dbm : DB} {booking : Booking}
    (hndb : (db.bookings.map Booking.id).Nodup)
    (hinv : counterInvariant cap db)
    (hmem : booking ∈ db.bookings)
    (hact : isActive booking = true)
    (hmf : dbm.flights = db.flights.map (fun f =>
        if adjustMatches booking.flight_id booking.seat_class 1 f
        then setAvail f booking.seat_class (availOf f booking.seat_class + 1) else f))
    (hmb : dbm.bookings = (setBookingStatus db booking.id .cancelled).bookings) :
    counterInvariant cap dbm := by
  unfold counterInvariant at hinv ⊢
  intro fl' hfl' c'
  rw [hmf] at hfl'
  rw [hmb]
  obtain ⟨fl, hfl, rfl⟩ := List.mem_map.mp hfl'
  have hcnt := activeCountOn_setBookingStatus hndb hmem .cancelled
  by_cases hm : adjustMatches booking.flight_id booking.seat_class 1 fl = true
  · rw [if_pos hm]
    have hfid : fl.id = booking.flight_id := by
      rcases adjustMatches_iff.mp hm with ⟨h1, _⟩ | ⟨h1, _⟩ <;> exact h1
    rw [setAvail_id]
    by_cases hc : c' = booking.seat_class
    · subst hc
      rw [availOf_setAvail_self]
      have h1 := hcnt fl.id booking.seat_class
      rw [if_pos (by simp [hfid, hact]), if_neg (by simp [isActive])] at h1
      have h2 := hinv fl hfl booking.seat_class
      omega
    · rw [availOf_setAvail_ne _ _ hc]
      have h1 := hcnt fl.id c'
      have h0 : (booking.seat_class == c') = false := beq_eq_false_iff_ne.mpr (Ne.symm hc)
      rw [if_neg (by simp [h0]), if_neg (by simp [h0])] at h1
      have h2 := hinv fl hfl c'
      omega
  · rw [if_neg hm]
    have hfid : ¬ fl.id = booking.flight_id := by
      intro h
      exact hm (adjustMatches_iff.mpr (Or.inr ⟨h, by norm_num⟩))
    have h0 : (booking.flight_id == fl.id) = false :=
      beq_eq_false_iff_ne.mpr (fun h => hfid h.symm)
    have h1 := hcnt fl.id c'
    rw [if_neg (by simp [h0]), if_neg (by simp [h0])] at h1
    have h2 := hinv fl hfl c'
    omega

theorem confirm_shape_invariant {cap : Nat → SeatClass → ℤ} {db dbm : DB} {booking : Booking}
    (hndb : (db.bookings.map Booking.id).Nodup)
    (hinv : counterInvariant cap db)
    (hmem : booking ∈ db.bookings)
    (hact : isActive booking = true)
    (hmf : dbm.flights = db.flights)
    (hmb : dbm.bookings = (setBookingStatus db booking.id .confirmed).bookings) :
    counterInvariant cap dbm := by
  unfold counterInvariant at hinv ⊢
  intro fl hfl c'
  rw [hmf] at hfl
  rw [hmb]
  have h1 := activeCountOn_setBookingStatus hndb hmem .confirmed fl.id c'
  have hca : isActive { booking with status := BookingStatus.confirmed } = true := by
    simp [isActive]
  simp only [hact, hca, Bool.and_true] at h1
  have h2 := hinv fl hfl c'
  omega

theorem apply_cancel_shape {db : DB} {booking : Booking}
    (hnc : ¬ booking.status = .cancelled) :
    ((apply_cancellation_effects db booking).2.flights
        = ((adjust_availability db booking.flight_id booking.seat_class 1).2).flights)
    ∧ ((apply_cancellation_effects db booking).2.bookings
        = (setBookingStatus db booking.id .cancelled).bookings) := by
  unfold apply_cancellation_effects
  rw [if_neg hnc]
  dsimp only
  rcases hsid : booking.seat_id with _ | sid <;>
    · constructor <;>
      · dsimp only
        split
        · split
          · split <;> rfl
          · rfl
        · rfl

theorem apply_cancel_invariant {cap : Nat → SeatClass → ℤ} {db : DB} {booking : Booking}
    (hndb : (db.bookings.map Booking.id).Nodup)
    (hinv : counterInvariant cap db)
    (hmem : booking ∈ db.bookings)
    (hact : isActive booking = true) :
    counterInvariant cap (apply_cancellation_effects db booking).2 := by
  have hnc : ¬ booking.status = .cancelled := by
    intro h
    simp [isActive, h] at hact
  obtain ⟨hfe, hbe⟩ := @apply_cancel_shape db booking hnc
  exact cancel_shape_invariant hndb hinv hmem hact (by rw [hfe, adjust_flights_def]) hbe

theorem apply_cancel_ids {db : DB} (booking : Booking) :
    ((apply_cancellation_effects db booking).2.bookings.map Booking.id
        = db.bookings.map Booking.id)
    ∧ (∀ b ∈ db.bookings, b.id ≠ booking.id →
        b ∈ (apply_cancellation_effects db booking).2.bookings) := by
  by_cases hnc : booking.status = .cancelled
  · unfold apply_cancellation_effects
    rw [if_pos hnc]
    exact ⟨rfl, fun b hb _ => hb⟩
  · obtain ⟨hfe, hbe⟩ := @apply_cancel_shape db booking hnc
    constructor
    · rw [hbe]
      have hsb : (setBookingStatus db booking.id .cancelled).bookings
          = db.bookings.map (fun b =>
              if b.id == booking.id then { b with status := .cancelled } else b) := rfl
      rw [hsb, List.map_map]
      apply List.map_congr_left
      intro b _
      by_cases hid : b.id = booking.id <;> simp [Function.comp, hid]
    · intro b hb hne
      have hupd : (fun x : Booking =>
          if x.id == booking.id then { x with status := BookingStatus.cancelled } else x) b
            = b := if_neg (by simpa using hne)
      rw [hbe]
      exact hupd ▸ List.mem_map_of_mem _ hb

theorem cancel_fold_invariant {cap : Nat → SeatClass → ℤ} :
    ∀ (rows : List Booking) (acc : Nat × DB),
      (rows.map Booking.id).Nodup →
      (∀ b ∈ rows, b ∈ (acc.2).bookings) →
      (∀ b ∈ rows, isActive b = true) →
      ((acc.2).bookings.map Booking.id).Nodup →
      counterInvariant cap acc.2 →
      counterInvariant cap
        (rows.foldl (fun acc b =>
            let r := apply_cancellation_effects acc.2 b
            (if r.1 then acc.1 + 1 else acc.1, r.2)) acc).2 := by
  intro rows
  induction rows with
  | nil => intro acc _ _ _ _ hinv; exact hinv
  | cons b rest ih =>
    intro acc hndr hmem hact hndb hinv
    rw [List.map_cons, List.nodup_cons] at hndr
    rw [List.foldl_cons]
    dsimp only
    apply ih
    · exact hndr.2
    · intro b' hb'
      apply (@apply_cancel_ids acc.2 b).2 b' (hmem b' (List.mem_cons_of_mem _ hb'))
      intro he
      exact hndr.1 (he ▸ List.mem_map_of_mem Booking.id hb')
    · exact fun b' hb' => hact b' (List.mem_cons_of_mem _ hb')
    · rw [(@apply_cancel_ids acc.2 b).1]
      exact hndb
    · exact apply_cancel_invariant hndb hinv (hmem b (List.mem_cons_self _ _))
        (hact b (List.mem_cons_self _ _))

theorem change_txn_ok_shape {db : DB} {bid : Nat} {sn : String} {bb : Booking} {dbt : DB}
    (h : change_seat_txn db bid sn = (.ok bb, dbt)) :
    dbt.flights = db.flights ∧
      (dbt.bookings = db.bookings ∨
       ∃ i sid, dbt.bookings = (setBookingSeat db i sid).bookings) := by
  rcases hfb : findBooking db bid with _ | b
  · unfold change_seat_txn at h
    rw [hfb] at h
    simp at h
  · unfold change_seat_txn at h
    rw [hfb] at h
    dsimp only at h
    by_cases hact : isActive b = true
    · rw [if_neg (not_not_intro hact)] at h
      by_cases hcond : (match b.seat_id.bind (findSeat db) with
          | some s => s.seat_number == sn
          | none => false) = true
      · rw [if_pos hcond] at h
        injection h with h1 h2
        subst h2
        exact ⟨rfl, Or.inl rfl⟩
      · rw [if_neg hcond] at h
        rcases hr : reserve_seat noSteal db b.flight_id b.seat_class (some sn)
          with ⟨os, db₁, tr⟩
        rw [hr] at h
        rcases os with _ | ns
        · dsimp only at h; simp at h
        · dsimp only at h
          injection h with h1 h2
          obtain ⟨cand, hcand, hns, hdb₁, htr⟩ := reserve_noSteal_some hr
          subst h2
          refine ⟨?_, Or.inr ⟨b.id, ns.id, ?_⟩⟩
          · simp only [setBookingSeat_flights]
            rcases hcs : b.seat_id.bind (findSeat db) with _ | old
            · dsimp only
              simp [hdb₁]
            · dsimp only
              split <;> simp [hdb₁]
          · show (setBookingSeat _ b.id ns.id).bookings = _
            rcases hcs : b.seat_id.bind (findSeat db) with _ | old
            · dsimp only
              simp [hdb₁, setBookingSeat_bookings]
            · dsimp only
              split <;> simp [hdb₁, setBookingSeat_bookings]
    · rw [if_pos hact] at h
      simp at h

theorem create_txn_success {db₀ : DB} {pid fid : Nat} {c : SeatClass}
    {ss : Option String} {aa : Bool} {ref : String} {nid : Nat} {bk : Booking} {db' : DB}
    (h : create_booking_txn db₀ pid fid c ss aa ref nid = (.ok bk, db')) :
    (adjust_availability db₀ fid c (-1)).1 = true
    ∧ db'.flights = ((adjust_availability db₀ fid c (-1)).2).flights
    ∧ db'.bookings = db₀.bookings ++ [bk]
    ∧ bk.flight_id = fid ∧ bk.seat_class = c ∧ bk.status = .pending := by
  unfold create_booking_txn at h
  by_cases hp : db₀.passengers.contains pid
  · rw [if_neg (not_not_intro hp)] at h
    rcases hf : findFlight db₀ fid with _ | flight
    · rw [hf] at h
      simp at h
    · rw [hf] at h
      dsimp only at h
      have hfid : flight.id = fid := by simpa using List.find?_some hf
      by_cases hst : flight.status ≠ "scheduled"
      · rw [if_pos hst] at h
        simp at h
      · rw [if_neg hst] at h
        by_cases hav : availOf flight c ≤ 0
        · rw [if_pos hav] at h
          simp at h
        · rw [if_neg hav] at h
          rcases ss with _ | sn' <;> rcases aa with _ | _ <;> dsimp only at h
          · simp at h
          · rcases hr : reserve_seat noSteal db₀ fid c none with ⟨os, db₁, tr⟩
            rw [hr] at h
            rcases os with _ | seat <;> dsimp only at h
            · simp at h
            · rw [hfid] at h
              obtain ⟨cand, hcand, hseat, hdb₁, htr⟩ := reserve_noSteal_some hr
              by_cases hadj : (adjust_availability db₁ fid c (-1)).1 = true
              · have h21 : (decrementOrRelease db₁ fid c seat).1 = true := by
                  rw [decrementOrRelease_eq, if_pos hadj]
                have hdd : (decrementOrRelease db₁ fid c seat).2
                    = (adjust_availability db₁ fid c (-1)).2 := by
                  rw [decrementOrRelease_eq, if_pos hadj]
                rw [if_pos h21] at h
                injection h with h1 h2
                injection h1 with h1
                subst h2
                refine ⟨?_, ?_, ?_, ?_, ?_, ?_⟩
                · rw [hdb₁] at hadj
                  exact hadj
                · dsimp only
                  rw [hdd, hdb₁, adjust_flights_def, adjust_flights_def,
                    setSeatAvailability_flights]
                · dsimp only
                  rw [hdd, hdb₁, adjust_availability_bookings, setSeatAvailability_bookings,
                    h1]
                · rw [← h1]
                · rw [← h1]
                · rw [← h1]
              · have h20 : (decrementOrRelease db₁ fid c seat).1 = false := by
                  rw [decrementOrRelease_eq, if_neg hadj]
                rw [if_neg (by rw [h20]; simp)] at h
                simp at h
          · rcases hr : reserve_seat noSteal db₀ fid c (some sn') with ⟨os, db₁, tr⟩
            rw [hr] at h
            rcases os with _ | seat <;> dsimp only at h
            · simp at h
            · rw [hfid] at h
              obtain ⟨cand, hcand, hseat, hdb₁, htr⟩ := reserve_noSteal_some hr
              by_cases hadj : (adjust_availability db₁ fid c (-1)).1 = true
              · have h21 : (decrementOrRelease db₁ fid c seat).1 = true := by
                  rw [decrementOrRelease_eq, if_pos hadj]
                have hdd : (decrementOrRelease db₁ fid c seat).2
                    = (adjust_availability db₁ fid c (-1)).2 := by
                  rw [decrementOrRelease_eq, if_pos hadj]
                rw [if_pos h21] at h
                injection h with h1 h2
                injection h1 with h1
                subst h2
                refine ⟨?_, ?_, ?_, ?_, ?_, ?_⟩
                · rw [hdb₁] at hadj
                  exact hadj
                · dsimp only
                  rw [hdd, hdb₁, adjust_flights_def, adjust_flights_def,
                    setSeatAvailability_flights]
                · dsimp only
                  rw [hdd, hdb₁, adjust_availability_bookings, setSeatAvailability_bookings,
                    h1]
                · rw [← h1]
                · rw [← h1]
                · rw [← h1]
              · have h20 : (decrementOrRelease db₁ fid c seat).1 = false := by
                  rw [decrementOrRelease_eq, if_neg hadj]
                rw [if_neg (by rw [h20]; simp)] at h
                simp at h
          · rcases hr : reserve_seat noSteal db₀ fid c (some sn') with ⟨os, db₁, tr⟩
            rw [hr] at h
            rcases os with _ | seat <;> dsimp only at h
            · simp at h
            · rw [hfid] at h
              obtain ⟨cand, hcand, hseat, hdb₁, htr⟩ := reserve_noSteal_some hr
              by_cases hadj : (adjust_availability db₁ fid c (-1)).1 = true
              · have h21 : (decrementOrRelease db₁ fid c seat).1 = true := by
                  rw [decrementOrRelease_eq, if_pos hadj]
                have hdd : (decrementOrRelease db₁ fid c seat).2
                    = (adjust_availability db₁ fid c (-1)).2 := by
                  rw [decrementOrRelease_eq, if_pos hadj]
                rw [if_pos h21] at h
                injection h with h1 h2
                injection h1 with h1
                subst h2
                refine ⟨?_, ?_, ?_, ?_, ?_, ?_⟩
                · rw [hdb₁] at hadj
                  exact hadj
                · dsimp only
                  rw [hdd, hdb₁, adjust_flights_def, adjust_flights_def,
                    setSeatAvailability_flights]
                · dsimp only
                  rw [hdd, hdb₁, adjust_availability_bookings, setSeatAvailability_bookings,
                    h1]
                · rw [← h1]
                · rw [← h1]
                · rw [← h1]
              · have h20 : (decrementOrRelease db₁ fid c seat).1 = false := by
                  rw [decrementOrRelease_eq, if_neg hadj]
                rw [if_neg (by rw [h20]; simp)] at h
                simp at h
  · rw [if_pos (by simpa using hp)] at h
    simp at h

/-! Claim theorems. -/

/-- C6: for every (nonnegative) price, seat class and tier multiplier,
`calculate_points` returns floor(price) multiplied by the class multiplier
(economy 1, business 2, first 3) truncated to an integer, then multiplied by
the tier multiplier and truncated again; in particular a FIRST-class booking
priced 1200.00 at bronze tier yields exactly 3600 points. -/
theorem C6_calculate_points_spec (price : ℚ) (hp : 0 ≤ price) (c : SeatClass) (t : ℚ) :
    calculate_points price c t
      = truncToInt ((truncToInt ((⌊price⌋ : ℚ) * (classPointMultiplier c : ℚ)) : ℚ) * t)
    ∧ calculate_points 1200 .first (tierMultiplier .bronze) = 3600 := by
  constructor
  · unfold calculate_points
    rw [truncToInt_of_nonneg hp]
    cases c <;> simp [classPointMultiplier, truncToInt_intCast]
  · simp [calculate_points, truncToInt, tierMultiplier]
    norm_num

/-- Witness for C6 at price 1200, first class, gold multiplier. -/
theorem C6_witness :
    (0 : ℚ) ≤ 1200
    ∧ (calculate_points 1200 .first (3 / 2)
        = truncToInt ((truncToInt ((⌊(1200 : ℚ)⌋ : ℚ) * (classPointMultiplier .first : ℚ)) : ℚ)
            * (3 / 2))
      ∧ calculate_points 1200 .first (tierMultiplier .bronze) = 3600) :=
  ⟨by norm_num, C6_calculate_points_spec 1200 (by norm_num) .first (3 / 2)⟩

/-- C9: the loyalty reversal performed on cancelling a CONFIRMED booking sets
the balance to max(0, balance - points) — never negative, with 150 points
reversed from a balance of 100 yielding 0 — and recomputes the tier from the
thresholds (below 25000 bronze, below 50000 silver, below 100000 gold, else
platinum); inside `apply_cancellation_effects` this is exactly the update
written to the passenger's frequent-flyer row. -/
theorem C9_reverse_on_cancel (acct : FrequentFlyer) (pts : ℤ) :
    (loyaltyReverse acct pts).points = max 0 (acct.points - pts)
    ∧ 0 ≤ (loyaltyReverse acct pts).points
    ∧ (loyaltyReverse acct pts).tier = calculate_tier (max 0 (acct.points - pts))
    ∧ (acct.points = 100 → pts = 150 → (loyaltyReverse acct pts).points = 0)
    ∧ (∀ p : ℤ,
        (p < 25000 → calculate_tier p = .bronze)
        ∧ (25000 ≤ p → p < 50000 → calculate_tier p = .silver)
        ∧ (50000 ≤ p → p < 100000 → calculate_tier p = .gold)
        ∧ (100000 ≤ p → calculate_tier p = .platinum))
    ∧ (∀ (db : DB) (booking : Booking) (loyalty : FrequentFlyer),
        booking.status = .confirmed →
        db.passengers.contains booking.passenger_id = true →
        findFlyer db booking.passenger_id = some loyalty →
        ((apply_cancellation_effects db booking).2).flyers
          = db.flyers.map (fun ff =>
              if ff.id == loyalty.id then
                { ff with
                  points := (loyaltyReverse loyalty
                    (calculate_points booking.price booking.seat_class
                      (tierMultiplier loyalty.tier))).points,
                  tier := (loyaltyReverse loyalty
                    (calculate_points booking.price booking.seat_class
                      (tierMultiplier loyalty.tier))).tier }
              else ff)) := by
  refine ⟨rfl, ?_, rfl, ?_, ?_, ?_⟩
  · simp [loyaltyReverse]
  · intro h100 h150
    simp [loyaltyReverse, h100, h150]
  · intro p
    exact ⟨calculate_tier_lt_25000, calculate_tier_silver, calculate_tier_gold,
      calculate_tier_platinum⟩
  · intro db booking loyalty hconf hpass hff
    have hnc : ¬ booking.status = BookingStatus.cancelled := by
      rw [hconf]; intro h; cases h
    have hmem : booking.passenger_id ∈ db.passengers := by simpa using hpass
    unfold apply_cancellation_effects
    rw [if_neg hnc, hconf]
    cases hseat : booking.seat_id <;> simp [hmem, hff, setFlyer]

/-- Witness for C9 at a bronze account holding 100 points, reversing 150. -/
theorem C9_witness :
    ({ id := 1, passenger_id := 2, points := 100, tier := (.bronze : LoyaltyTier) } :
        FrequentFlyer).points = 100
    ∧ (150 : ℤ) = 150
    ∧ (loyaltyReverse { id := 1, passenger_id := 2, points := 100, tier := .bronze } 150).points
        = 0 :=
  ⟨rfl, rfl,
    (C9_reverse_on_cancel { id := 1, passenger_id := 2, points := 100, tier := .bronze }
      150).2.2.2.1 rfl rfl⟩

/-- C5: create_booking and change_seat wrap their transaction in the retry
coordinator, which invokes the transaction at most 5 times, re-invokes it
only after a serialization rollback, sleeps 10·2^k milliseconds after the
k-th rolled-back attempt (10ms doubling), raises the concurrency error after
5 rollbacks, and propagates any other error immediately on its first
occurrence. -/
theorem C5_retry_coordinator (txn : Nat → TxOutcome Booking) :
    (withSerializationRetry txn).callsMade ≤ 5
    ∧ (∀ j, j + 1 < (withSerializationRetry txn).callsMade → txn j = .rollback)
    ∧ ((∀ k, k < 5 → txn k = .rollback) →
        withSerializationRetry txn = ⟨.error .concurrencyConflict, 5, [10, 20, 40, 80]⟩)
    ∧ (∀ k e, k < 5 → (∀ j, j < k → txn j = .rollback) → txn k = .fatal e →
        withSerializationRetry txn
          = ⟨.error e, k + 1, (List.range k).map (fun j => 10 * 2 ^ j)⟩)
    ∧ (∀ k b, k < 5 → (∀ j, j < k → txn j = .rollback) → txn k = .ok b →
        withSerializationRetry txn
          = ⟨.ok b, k + 1, (List.range k).map (fun j => 10 * 2 ^ j)⟩) := by
  refine ⟨?_, ?_, ?_, ?_, ?_⟩
  · simpa using retryGo_callsMade_le txn 5 0 []
  · intro j hj
    exact retryGo_rollback_before txn 5 0 [] j (Nat.zero_le j) hj
  · intro hall
    unfold withSerializationRetry
    rw [retryGo_rollback_step (hall 0 (by omega)) _ _ (by omega),
        retryGo_rollback_step (hall 1 (by omega)) _ _ (by omega),
        retryGo_rollback_step (hall 2 (by omega)) _ _ (by omega),
        retryGo_rollback_step (hall 3 (by omega)) _ _ (by omega),
        retryGo_rollback_last (hall 4 (by omega))]
    norm_num
  · intro k e hk hroll hfat
    unfold withSerializationRetry
    interval_cases k
    · rw [retryGo_fatal hfat _ _ (by omega)]; simp
    · rw [retryGo_rollback_step (hroll 0 (by omega)) _ _ (by omega),
          retryGo_fatal hfat _ _ (by omega)]
      simp [List.range_succ]
    · rw [retryGo_rollback_step (hroll 0 (by omega)) _ _ (by omega),
          retryGo_rollback_step (hroll 1 (by omega)) _ _ (by omega),
          retryGo_fatal hfat _ _ (by omega)]
      simp [List.range_succ]
    · rw [retryGo_rollback_step (hroll 0 (by omega)) _ _ (by omega),
          retryGo_rollback_step (hroll 1 (by omega)) _ _ (by omega),
          retryGo_rollback_step (hroll 2 (by omega)) _ _ (by omega),
          retryGo_fatal hfat _ _ (by omega)]
      simp [List.range_succ]
    · rw [retryGo_rollback_step (hroll 0 (by omega)) _ _ (by omega),
          retryGo_rollback_step (hroll 1 (by omega)) _ _ (by omega),
          retryGo_rollback_step (hroll 2 (by omega)) _ _ (by omega),
          retryGo_rollback_step (hroll 3 (by omega)) _ _ (by omega),
          retryGo_fatal hfat _ _ (by omega)]
      simp [List.range_succ]
  · intro k b hk hroll hok
    unfold withSerializationRetry
    interval_cases k
    · rw [retryGo_ok hok _ _ (by omega)]; simp
    · rw [retryGo_rollback_step (hroll 0 (by omega)) _ _ (by omega),
          retryGo_ok hok _ _ (by omega)]
      simp [List.range_succ]
    · rw [retryGo_rollback_step (hroll 0 (by omega)) _ _ (by omega),
          retryGo_rollback_step (hroll 1 (by omega)) _ _ (by omega),
          retryGo_ok hok _ _ (by omega)]
      simp [List.range_succ]
    · rw [retryGo_rollback_step (hroll 0 (by omega)) _ _ (by omega),
          retryGo_rollback_step (hroll 1 (by omega)) _ _ (by omega),
          retryGo_rollback_step (hroll 2 (by omega)) _ _ (by omega),
          retryGo_ok hok _ _ (by omega)]
      simp [List.range_succ]
    · rw [retryGo_rollback_step (hroll 0 (by omega)) _ _ (by omega),
          retryGo_rollback_step (hroll 1 (by omega)) _ _ (by omega),
          retryGo_rollback_step (hroll 2 (by omega)) _ _ (by omega),
          retryGo_rollback_step (hroll 3 (by omega)) _ _ (by omega),
          retryGo_ok hok _ _ (by omega)]
      simp [List.range_succ]

/-- Witness for C5: a transaction that always hits a serialization failure is
invoked 5 times, backs off 10, 20, 40, 80 ms, and ends in the concurrency
error. -/
theorem C5_witness :
    (∀ k, k < 5 → (fun _ => (.rollback : TxOutcome Booking)) k = .rollback)
    ∧ withSerializationRetry (fun _ => (.rollback : TxOutcome Booking))
        = ⟨.error .concurrencyConflict, 5, [10, 20, 40, 80]⟩ :=
  ⟨fun _ _ => rfl,
   (C5_retry_coordinator (fun _ => .rollback)).2.2.1 (fun _ _ => rfl)⟩

/-- C4: adjust_availability applies `counter += delta` only when the
post-condition `counter >= 0` holds, as one conditional UPDATE; it reports
true exactly when a row was affected, false leaves the state unchanged — in
particular for delta -1 on a zero counter and for a missing flight — and on
success the matched row's counter becomes `counter + delta` while every
other flight row is untouched. -/
theorem C4_adjust_availability (db : DB) (fid : Nat) (c : SeatClass) (delta : ℤ)
    (hnd : (db.flights.map Flight.id).Nodup)
    (hpos : ∀ fl ∈ db.flights, 0 ≤ availOf fl c) :
    ((adjust_availability db fid c delta).1 = true ↔
        ∃ fl, findFlight db fid = some fl ∧ 0 ≤ availOf fl c + delta)
    ∧ ((adjust_availability db fid c delta).1 = false →
        (adjust_availability db fid c delta).2 = db)
    ∧ (findFlight db fid = none → (adjust_availability db fid c delta).1 = false)
    ∧ (∀ fl, findFlight db fid = some fl → delta = -1 → availOf fl c = 0 →
        (adjust_availability db fid c delta).1 = false
        ∧ (adjust_availability db fid c delta).2 = db)
    ∧ (∀ fl, findFlight db fid = some fl → 0 ≤ availOf fl c + delta →
        (adjust_availability db fid c delta).1 = true
        ∧ findFlight ((adjust_availability db fid c delta).2) fid
            = some (setAvail fl c (availOf fl c + delta)))
    ∧ (∀ g ∈ db.flights, g.id ≠ fid →
        g ∈ ((adjust_availability db fid c delta).2).flights) := by
  refine ⟨adjust_true_iff hnd hpos, fun h => adjust_false_eq h, adjust_of_findFlight_none,
    ?_, ?_, ?_⟩
  · intro fl hfind hdelta hzero
    have hfalse : (adjust_availability db fid c delta).1 = false := by
      rcases hb : (adjust_availability db fid c delta).1 with _ | _
      · rfl
      · rcases (adjust_true_iff hnd hpos).mp hb with ⟨fl', hfind', hge⟩
        rw [hfind] at hfind'
        cases hfind'
        omega
    exact ⟨hfalse, adjust_false_eq hfalse⟩
  · intro fl hfind hge
    have hid : fl.id = fid := by simpa using List.find?_some hfind
    refine ⟨(adjust_true_iff hnd hpos).mpr ⟨fl, hfind, hge⟩, ?_⟩
    rw [findFlight_adjust, hfind, Option.map_some',
      if_pos (adjustMatches_iff.mpr (Or.inl ⟨hid, hge⟩))]
  · intro g hg hid
    have hm : adjustMatches fid c delta g = false := by
      rcases hb : adjustMatches fid c delta g with _ | _
      · rfl
      · rcases adjustMatches_iff.mp hb with ⟨h1, _⟩ | ⟨h1, _⟩ <;> exact absurd h1 hid
    have heq : (fun f => if adjustMatches fid c delta f then
        setAvail f c (availOf f c + delta) else f) g = g := by simp [hm]
    have hmem : (fun f => if adjustMatches fid c delta f then
          setAvail f c (availOf f c + delta) else f) g
        ∈ db.flights.map (fun f => if adjustMatches fid c delta f then
          setAvail f c (availOf f c + delta) else f) :=
      List.mem_map_of_mem _ hg
    rw [heq] at hmem
    exact hmem

/-- Witness for C4 on a flight with one economy seat left: the business-class
decrement (counter 0) is refused and leaves the state unchanged. -/
theorem C4_witness :
    ((wDB.flights.map Flight.id).Nodup ∧ ∀ fl ∈ wDB.flights, 0 ≤ availOf fl .business)
    ∧ (adjust_availability wDB 1 .business (-1)).1 = false
    ∧ (adjust_availability wDB 1 .business (-1)).2 = wDB := by
  refine ⟨⟨by decide, by decide⟩, ?_⟩
  have h := (C4_adjust_availability wDB 1 .business (-1) (by decide) (by decide)).2.2.2.1
  exact h wFlight (by decide) rfl (by decide)

/-- C7: cancel_booking succeeds exactly on PENDING or CONFIRMED bookings;
an already-CANCELLED booking (in particular, one cancelled by a previous
call) and a COMPLETED booking each fail with their invalid-state error,
leaving the state unchanged — so cancellation is not idempotent. -/
theorem C7_cancel_booking_not_idempotent (db : DB) (bid : Nat) (b : Booking)
    (hb : findBooking db bid = some b) :
    (isActive b = true → (cancel_booking db bid).1 = .ok { b with status := .cancelled })
    ∧ (∀ b' db', cancel_booking db bid = (.ok b', db') → isActive b = true)
    ∧ (b.status = .cancelled → cancel_booking db bid = (.error .alreadyCancelled, db))
    ∧ (b.status = .completed → cancel_booking db bid = (.error .cannotCancelCompleted, db))
    ∧ (∀ b' db', cancel_booking db bid = (.ok b', db') →
        cancel_booking db' bid = (.error .alreadyCancelled, db')) := by
  refine ⟨?_, ?_, ?_, ?_, ?_⟩
  · intro hact
    rcases (by simpa [isActive] using hact : b.status = .pending ∨ b.status = .confirmed)
      with h | h <;>
      simp [cancel_booking, hb, h]
  · intro b' db' heq
    rcases hst : b.status <;> simp [cancel_booking, hb, hst] at heq <;> simp [isActive, hst]
  · intro h1
    simp [cancel_booking, hb, h1]
  · intro h2
    simp [cancel_booking, hb, h2]
  · intro b' db' heq
    have h1 : b.status ≠ .cancelled := by
      intro hst; simp [cancel_booking, hb, hst] at heq
    have h2 : b.status ≠ .completed := by
      intro hst; simp [cancel_booking, hb, hst] at heq
    have hdb' : db' = (apply_cancellation_effects db b).2 := by
      simp only [cancel_booking, hb] at heq
      rw [if_neg h1, if_neg h2] at heq
      exact (Prod.mk.injEq _ _ _ _ ▸ heq).2.symm
    have hfind2 : findBooking db' bid = some { b with status := .cancelled } := by
      rw [hdb', findBooking_apply_cancel db b bid h1, hb]
      simp
    simp [cancel_booking, hfind2]

/-- Witness for C7: cancelling the pending fixture booking succeeds. -/
theorem C7_witness :
    findBooking wDB 1 = some wBookingPending
    ∧ isActive wBookingPending = true
    ∧ (cancel_booking wDB 1).1 = .ok { wBookingPending with status := .cancelled } :=
  ⟨by decide, by decide,
    (C7_cancel_booking_not_idempotent wDB 1 wBookingPending (by decide)).1 (by decide)⟩

/-- C10: confirming a PENDING booking with a successful payment still
succeeds and returns the booking as CONFIRMED when the passenger row or its
frequent-flyer row is absent: the accrual step is skipped and the flyers
table is untouched. -/
theorem C10_confirm_skips_missing_loyalty (db : DB) (bid : Nat) (b : Booking)
    (hb : findBooking db bid = some b) (hpend : b.status = .pending)
    (hno : db.passengers.contains b.passenger_id = false
      ∨ findFlyer db b.passenger_id = none) :
    (confirm_booking db bid true).1 = .ok { b with status := .confirmed }
    ∧ ((confirm_booking db bid true).2).flyers = db.flyers
    ∧ findBooking ((confirm_booking db bid true).2) bid
        = some { b with status := .confirmed } := by
  have hno' : b.passenger_id ∉ db.passengers ∨ findFlyer db b.passenger_id = none := by
    rcases hno with hno | hno
    · exact Or.inl (by simpa using hno)
    · exact Or.inr hno
  refine ⟨?_, ?_, ?_⟩ <;>
    (simp only [confirm_booking, hb]
     rw [if_neg (by simp [hpend])]) <;>
    rcases hno' with hno' | hno' <;>
    simp [hno', findBooking_setBookingStatus, hb]

/-- Witness for C10: the fixture passenger has no frequent-flyer row, yet
confirmation succeeds and awards nothing. -/
theorem C10_witness :
    findBooking wDB 1 = some wBookingPending
    ∧ wBookingPending.status = .pending
    ∧ (wDB.passengers.contains wBookingPending.passenger_id = false
        ∨ findFlyer wDB wBookingPending.passenger_id = none)
    ∧ (confirm_booking wDB 1 true).1 = .ok { wBookingPending with status := .confirmed }
    ∧ ((confirm_booking wDB 1 true).2).flyers = wDB.flyers :=
  ⟨by decide, rfl, Or.inr (by decide),
    (C10_confirm_skips_missing_loyalty wDB 1 wBookingPending (by decide) rfl
      (Or.inr (by decide))).1,
    (C10_confirm_skips_missing_loyalty wDB 1 wBookingPending (by decide) rfl
      (Or.inr (by decide))).2.1⟩

/-- C2: when the availability decrement fails after a seat was reserved, the
compensating release alone (lines 334-342, before any store rollback)
returns the state to exactly what it was before the reservation — no seat
stays flagged unavailable without an owning booking — the transaction body
ends in an error for every error path with its pre-transaction state
restored, and the committed state of create_booking is untouched on every
failure; the error raised on a failed decrement is the concurrency
(`counterConflict`, "please try again") kind. -/
theorem C2_failed_decrement_compensates (db : DB) (hnd : (db.seats.map Seat.id).Nodup) :
    (∀ (fid : Nat) (c : SeatClass) (sn : Option String) (seat : Seat) (dbR : DB)
        (tr : List Seat),
      reserve_seat noSteal db fid c sn = (some seat, dbR, tr) →
      ∀ (fid' : Nat) (c' : SeatClass),
        (decrementOrRelease dbR fid' c' seat).1 = false →
        (decrementOrRelease dbR fid' c' seat).2 = db
        ∧ (decrementOrRelease dbR fid' c' seat)
            = (false, setSeatAvailability ((adjust_availability dbR fid' c' (-1)).2) seat.id true))
    ∧ (∀ (pid fid : Nat) (c : SeatClass) (sn : Option String) (auto : Bool) (ref : String)
        (nid : Nat) (e : BookingError),
      (create_booking_txn db pid fid c sn auto ref nid).1 = .error e →
      (create_booking_txn db pid fid c sn auto ref nid).2 = db)
    ∧ (∀ (pid fid : Nat) (c : SeatClass) (sn : Option String) (auto : Bool) (ref : String)
        (nid : Nat) (e : BookingError),
      (create_booking db pid fid c sn auto ref nid).1 = .error e →
      (create_booking db pid fid c sn auto ref nid).2 = db) := by
  refine ⟨?_, ?_, ?_⟩
  · intro fid c sn seat dbR tr h fid' c' hfail
    refine ⟨compensation_restores hnd h hfail, ?_⟩
    rw [decrementOrRelease_eq]
    rcases hb : (adjust_availability dbR fid' c' (-1)).1 with _ | _
    · rw [if_neg (by simp [hb])]
    · exfalso
      have halt : (decrementOrRelease dbR fid' c' seat).1 = true := by
        rw [decrementOrRelease_eq, if_pos (by simp [hb])]
      rw [halt] at hfail
      cases hfail
  · intro pid fid c sn auto ref nid e h
    exact create_txn_error_frame hnd pid fid c sn auto ref nid h
  · intro pid fid c sn auto ref nid e h
    exact create_booking_error_frame pid fid c sn auto ref nid h

/-- Witness for C2: on the fixture state with a zero economy counter but a
stray available seat, the reservation succeeds, the decrement fails, and
the compensating release restores the state exactly. -/
theorem C2_witness :
    (wDB0.seats.map Seat.id).Nodup
    ∧ reserve_seat noSteal wDB0 1 .economy none
        = (some { wSeat2 with is_available := false }, setSeatAvailability wDB0 2 false,
           [wSeat2])
    ∧ (decrementOrRelease (setSeatAvailability wDB0 2 false) 1 .economy
        { wSeat2 with is_available := false }).1 = false
    ∧ (decrementOrRelease (setSeatAvailability wDB0 2 false) 1 .economy
        { wSeat2 with is_available := false }).2 = wDB0 := by
  refine ⟨by decide, by decide, by decide, ?_⟩
  exact ((C2_failed_decrement_compensates wDB0 (by decide)).1 1 .economy none
    { wSeat2 with is_available := false } (setSeatAvailability wDB0 2 false) [wSeat2]
    (by decide) 1 .economy (by decide)).1

/-- C3: with a specific seat number, _reserve_seat attempts the conditional
flip of exactly that seat and returns it on success and null otherwise, with
no fallback (also on a lost race); without a seat number it selects the
lowest-numbered available seat of the class, flips it on a won race, on a
lost race retries on the remaining seats (the rival's flip now visible),
returns a seat that was available with no lower-numbered seat left
available, and returns null exactly when no candidate remains. -/
theorem C3_reserve_seat_contract (db : DB) (fid : Nat) (c : SeatClass) (env : Nat → Bool) :
    (∀ (sn : String) (seat : Seat) (dbR : DB) (tr : List Seat),
      reserve_seat env db fid c (some sn) = (some seat, dbR, tr) →
      seat.seat_number = sn
      ∧ ∃ cand, cand ∈ db.seats ∧ seatMatches fid c cand = true ∧ cand.seat_number = sn
          ∧ seat = { cand with is_available := false }
          ∧ dbR = setSeatAvailability db cand.id false ∧ tr = [cand])
    ∧ (∀ sn : String, findCandidate db fid c (some sn) = none →
        reserve_seat env db fid c (some sn) = (none, db, []))
    ∧ (∀ (sn : String) (cand : Seat), findCandidate db fid c (some sn) = some cand →
        env 0 = true →
        reserve_seat env db fid c (some sn)
          = (none, setSeatAvailability db cand.id false, [cand]))
    ∧ (∀ (sn : String) (cand : Seat), findCandidate db fid c (some sn) = some cand →
        env 0 = false →
        reserve_seat env db fid c (some sn)
          = (some { cand with is_available := false },
             setSeatAvailability db cand.id false, [cand]))
    ∧ (∀ cand : Seat, findCandidate db fid c none = some cand →
        (∀ t ∈ db.seats, seatMatches fid c t = true →
          ¬ t.seat_number.data < cand.seat_number.data)
        ∧ (env 0 = false →
            reserve_seat env db fid c none
              = (some { cand with is_available := false },
                 setSeatAvailability db cand.id false, [cand]))
        ∧ (env 0 = true →
            reserve_seat env db fid c none
              = ((reserve_seat (fun n => env (n + 1))
                    (setSeatAvailability db cand.id false) fid c none).1,
                 (reserve_seat (fun n => env (n + 1))
                    (setSeatAvailability db cand.id false) fid c none).2.1,
                 cand :: (reserve_seat (fun n => env (n + 1))
                    (setSeatAvailability db cand.id false) fid c none).2.2)))
    ∧ (findCandidate db fid c none = none → reserve_seat env db fid c none = (none, db, []))
    ∧ (∀ (db' : DB) (tr : List Seat), reserve_seat env db fid c none = (none, db', tr) →
        findCandidate db' fid c none = none)
    ∧ (∀ (seat : Seat) (db' : DB) (tr : List Seat),
        reserve_seat env db fid c none = (some seat, db', tr) →
        ∃ cand, cand ∈ db.seats ∧ seatMatches fid c cand = true
          ∧ seat = { cand with is_available := false }
          ∧ ∀ t ∈ db'.seats, seatMatches fid c t = true →
              ¬ t.seat_number.data < cand.seat_number.data) := by
  refine ⟨?_, ?_, ?_, ?_, ?_, ?_, ?_, ?_⟩
  · intro sn seat dbR tr h
    unfold reserve_seat at h
    rw [reserveGo_succ] at h
    rcases hc : findCandidate db fid c (some sn) with _ | cand <;> rw [hc] at h
    · rw [reserveStep_none] at h
      simp only [Prod.mk.injEq, reduceCtorEq] at h
      exact h.1.elim
    · obtain ⟨hmem, hm, hsn⟩ := findCandidate_some_spec hc
      rcases he : env 0 with _ | _ <;> rw [he] at h
      · rw [reserveStep_won] at h
        simp only [Prod.mk.injEq, Option.some.injEq] at h
        refine ⟨?_, cand, hmem, hm, hsn sn rfl, h.1.symm, h.2.1.symm, h.2.2.symm⟩
        rw [← h.1]
        exact hsn sn rfl
      · rw [reserveStep_lost_specific] at h
        simp only [Prod.mk.injEq, reduceCtorEq] at h
        exact h.1.elim
  · intro sn hc
    unfold reserve_seat
    rw [reserveGo_succ, hc, reserveStep_none]
  · intro sn cand hc he
    unfold reserve_seat
    rw [reserveGo_succ, hc, he, reserveStep_lost_specific]
  · intro sn cand hc he
    unfold reserve_seat
    rw [reserveGo_succ, hc, he, reserveStep_won]
  · intro cand hc
    obtain ⟨hmem, hm, _⟩ := findCandidate_some_spec hc
    refine ⟨findCandidate_auto_min hc, ?_, ?_⟩
    · intro he
      unfold reserve_seat
      rw [reserveGo_succ, hc, he, reserveStep_won]
    · intro he
      unfold reserve_seat
      rw [reserveGo_succ, hc, he, reserveStep_lost_auto]
      have hlt := availSeatCount_flip_lt hmem hm
      have hlen : (setSeatAvailability db cand.id false).seats.length = db.seats.length := by
        simp [setSeatAvailability]
      have hle := availSeatCount_le_length db fid c
      rw [reserveGo_fuel_irrel fid c none db.seats.length
        ((setSeatAvailability db cand.id false).seats.length + 1) (fun n => env (n + 1))
        (setSeatAvailability db cand.id false) (by omega) (by omega)]
  · intro hc
    unfold reserve_seat
    rw [reserveGo_succ, hc, reserveStep_none]
  · intro db' tr h
    have hle := availSeatCount_le_length db fid c
    exact reserveGo_auto_none fid c (db.seats.length + 1) env db db' tr (by omega) h
  · intro seat db' tr h
    have hle := availSeatCount_le_length db fid c
    exact reserveGo_auto_some fid c (db.seats.length + 1) env db seat db' tr (by omega) h

/-- Witness for C3: auto-assignment on the fixture state selects seat 02B,
the lowest-numbered (and only) available economy seat. -/
theorem C3_witness :
    findCandidate wDB 1 .economy none = some wSeat2
    ∧ noSteal 0 = false
    ∧ reserve_seat noSteal wDB 1 .economy none
        = (some { wSeat2 with is_available := false }, setSeatAvailability wDB 2 false,
           [wSeat2]) :=
  ⟨by decide, rfl,
    ((C3_reserve_seat_contract wDB 1 .economy noSteal).2.2.2.2.1 wSeat2 (by decide)).2.1 rfl⟩

/-- C8: change_seat requires an active (PENDING or CONFIRMED) booking;
requesting the seat the booking already holds is a no-op returning the
current booking with the state untouched; every failure — in particular an
unavailable target seat — leaves the state unchanged both inside the
transaction body and at the committed level, so the booking's seat reference
and the old seat's unavailability survive a failed call; and a success
reserved the new seat first: the returned booking references an
available seat of the booking's flight and class bearing the requested
number, the booking row is updated to it, the new seat row is flipped
unavailable, and a distinct old seat row is released back to available. -/
theorem C8_change_seat_contract (db : DB) (bid : Nat) (sn : String) (b : Booking)
    (hb : findBooking db bid = some b) :
    (isActive b = false →
       change_seat db bid sn = (.error .invalidStatusForSeatChange, db))
    ∧ (∀ cs, isActive b = true → b.seat_id.bind (findSeat db) = some cs →
        cs.seat_number = sn → change_seat db bid sn = (.ok b, db))
    ∧ (∀ e, (change_seat_txn db bid sn).1 = .error e →
        (change_seat_txn db bid sn).2 = db)
    ∧ (∀ e, (change_seat db bid sn).1 = .error e →
        (change_seat db bid sn).2 = db)
    ∧ (isActive b = true →
        (∀ cs, b.seat_id.bind (findSeat db) = some cs → ¬ cs.seat_number = sn) →
        findCandidate db b.flight_id b.seat_class (some sn) = none →
        change_seat db bid sn = (.error .seatUnavailable, db))
    ∧ ((db.seats.map Seat.id).Nodup →
        ∀ b' db', change_seat db bid sn = (.ok b', db') →
          (b' = b ∧ db' = db)
          ∨ ∃ cand, cand ∈ db.seats
              ∧ seatMatches b.flight_id b.seat_class cand = true
              ∧ cand.seat_number = sn
              ∧ b' = { b with seat_id := some cand.id }
              ∧ findBooking db' bid = some { b with seat_id := some cand.id }
              ∧ findSeat db' cand.id = some { cand with is_available := false }
              ∧ ∀ os, b.seat_id.bind (findSeat db) = some os → os.id ≠ cand.id →
                  findSeat db' os.id = some { os with is_available := true }) := by
  refine ⟨?_, ?_, ?_, ?_, ?_, ?_⟩
  · intro hina
    unfold change_seat change_seat_txn
    rw [hb]
    dsimp only
    rw [if_pos (by simp [hina])]
  · intro cs hact hcs hnum
    have hcond : (match b.seat_id.bind (findSeat db) with
        | some s => s.seat_number == sn
        | none => false) = true := by
      rw [hcs]; simpa using hnum
    unfold change_seat change_seat_txn
    rw [hb]
    dsimp only
    rw [if_neg (not_not_intro hact), if_pos hcond]
  · intro e h
    exact change_txn_error_frame h
  · intro e h
    exact change_seat_error_frame h
  · intro hact hnoop hcand
    have hcond : (match b.seat_id.bind (findSeat db) with
        | some s => s.seat_number == sn
        | none => false) = false := by
      rcases hcs : b.seat_id.bind (findSeat db) with _ | cs
      · rfl
      · simpa using hnoop cs hcs
    unfold change_seat change_seat_txn
    rw [hb]
    dsimp only
    rw [if_neg (not_not_intro hact), if_neg (by simp [hcond]),
      reserve_noSteal_eq, hcand]
  · intro hnd b' db' heq
    unfold change_seat at heq
    rcases ht : change_seat_txn db bid sn with ⟨res, dbt⟩
    rw [ht] at heq
    rcases res with e | bb
    · dsimp only at heq
      injection heq with h1 h2
      exact Except.noConfusion h1
    · dsimp only at heq
      injection heq with h1 h2
      injection h1 with h1
      subst h1
      subst h2
      unfold change_seat_txn at ht
      rw [hb] at ht
      dsimp only at ht
      by_cases hact : isActive b = true
      · rw [if_neg (not_not_intro hact)] at ht
        by_cases hcond : (match b.seat_id.bind (findSeat db) with
            | some s => s.seat_number == sn
            | none => false) = true
        · rw [if_pos hcond] at ht
          injection ht with h3 h4
          injection h3 with h3
          exact Or.inl ⟨h3.symm, h4.symm⟩
        · rw [if_neg hcond] at ht
          rcases hr : reserve_seat noSteal db b.flight_id b.seat_class (some sn)
            with ⟨os, db₁, tr⟩
          rw [hr] at ht
          rcases os with _ | ns
          · dsimp only at ht
            injection ht with h3 h4
            exact Except.noConfusion h3
          · dsimp only at ht
            obtain ⟨cand, hcand, hns, hdb₁, htr⟩ := reserve_noSteal_some hr
            obtain ⟨hcmem, hcmatch, hcnum⟩ := findCandidate_some_spec hcand
            have hnsid : ns.id = cand.id := by rw [hns]
            rcases hcs : b.seat_id.bind (findSeat db) with _ | old
            · rw [hcs] at ht
              dsimp only at ht
              injection ht with h3 h4
              injection h3 with h3
              refine Or.inr ⟨cand, hcmem, hcmatch, hcnum sn rfl, ?_, ?_, ?_, ?_⟩
              · rw [← h3, hnsid]
              · rw [← h4, findBooking_setBookingSeat, hdb₁]
                simp [hb, hnsid]
              · rw [← h4]
                simp only [findSeat_setBookingSeat]
                rw [hdb₁, findSeat_setSeatAvailability,
                  findSeat_mem_of_nodup hnd hcmem]
                simp
              · intro os hos hneq
                exact Option.noConfusion hos
            · rw [hcs] at ht
              dsimp only at ht
              by_cases hoid : old.id = ns.id
              · rw [if_neg (not_not_intro hoid)] at ht
                injection ht with h3 h4
                injection h3 with h3
                refine Or.inr ⟨cand, hcmem, hcmatch, hcnum sn rfl, ?_, ?_, ?_, ?_⟩
                · rw [← h3, hnsid]
                · rw [← h4, findBooking_setBookingSeat, hdb₁]
                  simp [hb, hnsid]
                · rw [← h4]
                  simp only [findSeat_setBookingSeat]
                  rw [hdb₁, findSeat_setSeatAvailability,
                    findSeat_mem_of_nodup hnd hcmem]
                  simp
                · intro os hos hneq
                  have hoscand : os.id = cand.id := by
                    rw [← Option.some.inj hos, hoid, hnsid]
                  exact absurd hoscand hneq
              · rw [if_pos hoid] at ht
                injection ht with h3 h4
                injection h3 with h3
                have hocand : old.id ≠ cand.id := by
                  rw [← hnsid]; exact hoid
                refine Or.inr ⟨cand, hcmem, hcmatch, hcnum sn rfl, ?_, ?_, ?_, ?_⟩
                · rw [← h3, hnsid]
                · rw [← h4, findBooking_setBookingSeat]
                  simp [hdb₁, hb, hnsid]
                · rw [← h4]
                  simp only [findSeat_setBookingSeat]
                  rw [findSeat_setSeatAvailability, hdb₁,
                    findSeat_setSeatAvailability,
                    findSeat_mem_of_nodup hnd hcmem]
                  simp [Ne.symm hocand]
                · intro os hos hneq
                  obtain rfl : old = os := Option.some.inj hos
                  have hosfind : findSeat db old.id = some old := findSeat_of_bind hcs
                  rw [← h4]
                  simp only [findSeat_setBookingSeat]
                  rw [findSeat_setSeatAvailability, hdb₁,
                    findSeat_setSeatAvailability, hosfind]
                  simp [hneq]
      · rw [if_pos hact] at ht
        injection ht with h3 h4
        exact Except.noConfusion h3

/-- Witness for C8 on the fixture state: booking 1 already holds seat "01A",
so changing to "01A" is a no-op returning the booking with the state
untouched. -/
theorem C8_witness :
    findBooking wDB 1 = some wBookingPending
      ∧ change_seat wDB 1 "01A" = (.ok wBookingPending, wDB) :=
  ⟨rfl, (C8_change_seat_contract wDB 1 "01A" wBookingPending rfl).2.1 wSeat1
    rfl rfl rfl⟩

/-- C1: on a well-formed state (distinct primary keys) satisfying the counter
invariant — for every flight row and class, availability plus the number of
PENDING/CONFIRMED bookings of that flight and class equals a fixed capacity —
every mutating operation of the core (create_booking, confirm_booking,
cancel_booking, change_seat, cancel_bookings_for_flight) leaves the
invariant satisfied, at every input and on both their success and their
failure paths. -/
theorem C1_counter_invariant_preserved (cap : Nat → SeatClass → ℤ) (db : DB)
    (hwf : WF db) (hinv : counterInvariant cap db) :
    (∀ pid fid c ss aa ref nid,
        counterInvariant cap (create_booking db pid fid c ss aa ref nid).2)
    ∧ (∀ bid ps, counterInvariant cap (confirm_booking db bid ps).2)
    ∧ (∀ bid, counterInvariant cap (cancel_booking db bid).2)
    ∧ (∀ bid sn, counterInvariant cap (change_seat db bid sn).2)
    ∧ (∀ fid, counterInvariant cap (cancel_bookings_for_flight db fid).2) := by
  refine ⟨?_, ?_, ?_, ?_, ?_⟩
  · intro pid fid c ss aa ref nid
    unfold create_booking
    rcases ht : create_booking_txn db pid fid c ss aa ref nid with ⟨res, dbt⟩
    rcases res with e | bk
    · exact hinv
    · obtain ⟨hadj, hfl, hbks, hbf, hbc, hbs⟩ := create_txn_success ht
      show counterInvariant cap dbt
      unfold counterInvariant at hinv ⊢
      intro fl' hfl' c'
      rw [hfl, adjust_flights_def] at hfl'
      rw [hbks, activeCountOn_append]
      obtain ⟨fl, hfl0, rfl⟩ := List.mem_map.mp hfl'
      have hbact : isActive bk = true := by simp [isActive, hbs]
      by_cases hm : adjustMatches fid c (-1) fl = true
      · have hfid : fl.id = fid := by
          rcases adjustMatches_iff.mp hm with ⟨h1, _⟩ | ⟨h1, _⟩ <;> exact h1
        rw [if_pos hm, setAvail_id]
        by_cases hc : c' = c
        · subst hc
          rw [availOf_setAvail_self]
          rw [if_pos (by simp [hbf, hbc, hfid, hbact])]
          have h2 := hinv fl hfl0 c'
          push_cast
          omega
        · rw [availOf_setAvail_ne _ _ hc]
          have h0 : (bk.seat_class == c') = false := by
            rw [hbc]; exact beq_eq_false_iff_ne.mpr (Ne.symm hc)
          rw [if_neg (by simp [h0])]
          have h2 := hinv fl hfl0 c'
          omega
      · rw [if_neg hm]
        have hfid : ¬ fl.id = fid := by
          intro he
          have hadj' : db.flights.any (adjustMatches fid c (-1)) = true := hadj
          obtain ⟨frow, hfrow, hfm⟩ := List.any_eq_true.mp hadj'
          have hrid : frow.id = fid := by
            rcases adjustMatches_iff.mp hfm with ⟨h1, _⟩ | ⟨h1, _⟩ <;> exact h1
          have heq : fl = frow :=
            key_injective_of_nodup Flight.id hwf.flights_nodup hfl0 hfrow
              (by rw [he, hrid])
          exact hm (heq ▸ hfm)
        have h0 : (bk.flight_id == fl.id) = false := by
          rw [hbf]; exact beq_eq_false_iff_ne.mpr (fun h => hfid h.symm)
        rw [if_neg (by simp [h0])]
        have h2 := hinv fl hfl0 c'
        omega
  · intro bid ps
    unfold confirm_booking
    rcases hbk : findBooking db bid with _ | booking
    · exact hinv
    · dsimp only
      by_cases hst : booking.status = .pending
      · rw [if_neg (not_not_intro hst)]
        have hmem := List.mem_of_find?_eq_some hbk
        have hact : isActive booking = true := by simp [isActive, hst]
        by_cases hps : ps = true
        · rw [if_pos hps]
          dsimp only
          refine confirm_shape_invariant hwf.bookings_nodup hinv hmem hact ?_ ?_
          · split
            · split <;> rfl
            · rfl
          · split
            · split <;> rfl
            · rfl
        · rw [if_neg hps]
          dsimp only
          refine cancel_shape_invariant hwf.bookings_nodup hinv hmem hact ?_ ?_
          · rcases booking.seat_id with _ | sid <;> dsimp only <;>
              simp [adjust_flights_def]
          · rcases booking.seat_id with _ | sid <;> rfl
      · rw [if_pos hst]
        exact hinv
  · intro bid
    unfold cancel_booking
    rcases hbk : findBooking db bid with _ | booking
    · exact hinv
    · dsimp only
      by_cases hc1 : booking.status = .cancelled
      · rw [if_pos hc1]
        exact hinv
      · rw [if_neg hc1]
        by_cases hc2 : booking.status = .completed
        · rw [if_pos hc2]
          exact hinv
        · rw [if_neg hc2]
          have hact : isActive booking = true := by
            rcases hstv : booking.status
            · simp [isActive, hstv]
            · simp [isActive, hstv]
            · exact absurd hstv hc1
            · exact absurd hstv hc2
          exact apply_cancel_invariant hwf.bookings_nodup hinv
            (List.mem_of_find?_eq_some hbk) hact
  · intro bid sn
    unfold change_seat
    rcases ht : change_seat_txn db bid sn with ⟨res, dbt⟩
    rcases res with e | bb
    · exact hinv
    · obtain ⟨hfl, hbk⟩ := change_txn_ok_shape ht
      show counterInvariant cap dbt
      rcases hbk with hbk | ⟨i, sid, hbk⟩
      · exact counterInvariant_ext hfl hbk hinv
      · unfold counterInvariant at hinv ⊢
        intro fl hfl' c'
        rw [hfl] at hfl'
        rw [hbk, activeCountOn_setBookingSeat]
        exact hinv fl hfl' c'
  · intro fid
    unfold cancel_bookings_for_flight
    dsimp only
    apply cancel_fold_invariant
    · exact List.Nodup.sublist ((List.filter_sublist _).map _) hwf.bookings_nodup
    · intro b hb
      exact List.mem_of_mem_filter hb
    · intro b hb
      have h := List.of_mem_filter hb
      simp only [Bool.and_eq_true] at h
      exact h.2
    · exact hwf.bookings_nodup
    · exact hinv

/-- Witness for C1 on the fixture state: the capacity assignment 2 economy
seats / 0 business / 0 first satisfies the invariant on wDB, and it still
holds after confirming the pending booking. -/
theorem C1_witness :
    counterInvariant (fun _ c => match c with | .economy => 2 | _ => 0)
      (confirm_booking wDB 1 true).2 :=
  (C1_counter_invariant_preserved (fun _ c => match c with | .economy => 2 | _ => 0)
      wDB ⟨by decide, by decide, by decide⟩ (by decide)).2.1 1 true

end FlightDB
